import Mathlib

/-! Verification of welle-cli: the capture handlers of `src/welle-cli/welle-cli.cpp`.

A shallow embedding of the string helpers (`ltrim`, `rtrim`, `trim`), of the
per-service recorder `WavProgrammeHandler` (`onNewAudio`, `onNewDynamicLabel`,
`onMOT`, destructor), of `RadioInterface::onSNR` and of the output-path
derivation in `main`.

Conventions of the embedding:
* a `std::string` is a `List Char`;
* every side effect of a callback is an `Event` appended to a trace, the
  callback returns the new object state together with the events it caused;
* `time(NULL)` is an argument of the callback (`timestamp`);
* `wavfile_open` may return a null pointer: its outcome is the argument
  `openOk`; a non-null `FILE*` is a sink identifier drawn from a counter, so
  that every successful open yields a sink distinct from all earlier ones;
* `std::ofstream::open` may fail, and the source does not test it: its outcome
  is an argument (`txtOk`, `motOk`), and what is written to a stream that
  failed to open is lost;
* a `float` is either NaN or a number, and `==` on floats is false as soon as
  one side is NaN;
* `uint32_t` values are natural numbers reduced modulo `2 ^ 32` where the
  source narrows (`current_mot_size`).
-/

namespace WelleCli

/-- A `std::string`. -/
abbrev Str := List Char

/-! ## std::string helpers used by the source -/

/-- The call `s.find_first_not_of(set)`; `none` is `std::string::npos`. -/
def find_first_not_of : Str → Str → Option Nat
  | [], _ => none
  | c :: cs, set =>
    if c ∈ set then (find_first_not_of cs set).map (· + 1) else some 0

/-- The call `s.find_last_not_of(set)`; `none` is `std::string::npos`. -/
def find_last_not_of : Str → Str → Option Nat
  | [], _ => none
  | c :: cs, set =>
    match find_last_not_of cs set with
    | some i => some (i + 1)
    | none => if c ∈ set then none else some 0

/-- The call `s.find_last_of(set)`; `none` is `std::string::npos`. -/
def find_last_of : Str → Str → Option Nat
  | [], _ => none
  | c :: cs, set =>
    match find_last_of cs set with
    | some i => some (i + 1)
    | none => if c ∈ set then some 0 else none

/-- The call `s.substr(pos)`. -/
def substr_from (s : Str) (pos : Nat) : Str := s.drop pos

/-- The call `s.substr(0, count)`. -/
def substr_to (s : Str) (count : Nat) : Str := s.take count

/-- The constant `const std::string WHITESPACE = " \n\r\t\f\v";` -/
def WHITESPACE : Str := [' ', '\n', '\r', '\t', '\x0c', '\x0b']

/-- The function `std::string ltrim(const std::string &s)`. -/
def ltrim (s : Str) : Str :=
  match find_first_not_of s WHITESPACE with
  | none => []
  | some start => substr_from s start

/-- The function `std::string rtrim(const std::string &s)`. -/
def rtrim (s : Str) : Str :=
  match find_last_not_of s WHITESPACE with
  | none => []
  | some e => substr_to s (e + 1)

/-- The function `std::string trim(const std::string &s)`. -/
def trim (s : Str) : Str := rtrim (ltrim s)

/-! ## Number rendering (`operator<<` with `std::hex` / `std::dec`, `std::to_string`) -/

/-- The digit character of a value below 16, lower case as `std::hex` prints it. -/
def digitChar (d : Nat) : Char :=
  match d with
  | 0 => '0' | 1 => '1' | 2 => '2' | 3 => '3' | 4 => '4' | 5 => '5' | 6 => '6' | 7 => '7'
  | 8 => '8' | 9 => '9' | 10 => 'a' | 11 => 'b' | 12 => 'c' | 13 => 'd' | 14 => 'e'
  | _ => 'f'

/-- Digits of `n` in base `b`, most significant first, no leading zero, no padding;
the first argument bounds the number of digits. -/
def renderBase (b : Nat) : Nat → Nat → Str
  | 0, _ => []
  | fuel + 1, n =>
    if n < b then [digitChar n] else renderBase b fuel (n / b) ++ [digitChar (n % b)]

/-- The output of `stream << std::hex << n` for an unsigned `n`. -/
def renderHex (n : Nat) : Str := renderBase 16 (n + 1) n

/-- The output of `stream << std::dec << n` for an unsigned `n`, also `std::to_string(n)`. -/
def renderDec (n : Nat) : Str := renderBase 10 (n + 1) n

/-- The output of `stream << std::dec << i` for a signed `i`. -/
def renderInt (i : Int) : Str :=
  if i < 0 then '-' :: renderDec i.natAbs else renderDec i.natAbs

/-! ## Effects -/

/-- A JSON scalar as the handlers store it in a record. -/
inductive JsonValue where
  | str (s : Str)
  | num (n : Nat)
  deriving DecidableEq

/-- The JSON document `j[key] = { fields }` built by a handler, one line of a log file. -/
structure JsonRecord where
  key : Str
  fields : List (Str × JsonValue)
  deriving DecidableEq

/-- One side effect of a `WavProgrammeHandler` callback. -/
inductive Event where
  /-- A line on standard output. -/
  | cout (line : Str)
  /-- A line on standard error. -/
  | cerr (line : Str)
  /-- The call `wavfile_open(filename, rate, channels)`; `result` is the sink it
  returned, `none` for a null pointer. -/
  | wavfile_open (filename : Str) (rate : Int) (channels : Nat) (result : Option Nat)
  /-- The call `wavfile_close(fd)`. -/
  | wavfile_close (fd : Nat)
  /-- The call `wavfile_write(fd, data, size)` with the whole sample vector. -/
  | wavfile_write (fd : Nat) (samples : List Int)
  /-- A stream opened with `std::ios_base::app`, one record and `endl` written, closed. -/
  | file_append (filename : Str) (record : JsonRecord)
  /-- A stream opened on `filename` (truncating), the bytes written, closed. -/
  | file_write (filename : Str) (bytes : List Nat)
  /-- A `std::ofstream::open` on `filename` that failed: the stream stays in the
  failed state, what the handler writes to it is lost, and the file is untouched. -/
  | ofstream_fail (filename : Str)
  deriving DecidableEq

/-! ## WavProgrammeHandler -/

/-- The fields of `mot_file_t` that `onMOT` reads. -/
structure mot_file_t where
  data : List Nat
  content_sub_type : Int
  content_name : Str
  click_through_url : Str
  category_title : Str
  deriving DecidableEq

/-- The data members of `class WavProgrammeHandler`; `fd` is `none` for `nullptr`. -/
structure WavProgrammeHandler where
  last_size : Nat
  SId : Nat
  filePrefix : Str
  fd : Option Nat
  rate : Int
  deriving DecidableEq

/-- The constructor `WavProgrammeHandler(SId, fileprefix)` with the default member
initialisers `last_size = 0`, `fd = nullptr`, `rate = 0`. -/
def WavProgrammeHandler.new (SId : Nat) (filePrefix : Str) : WavProgrammeHandler :=
  { last_size := 0, SId := SId, filePrefix := filePrefix, fd := none, rate := 0 }

/-- The text `"[0x" << std::hex << SId << std::dec << "] "` that starts the console lines. -/
def sidTag (h : WavProgrammeHandler) : Str :=
  "[0x".toList ++ renderHex h.SId ++ "] ".toList

/-- The destructor `~WavProgrammeHandler()`: the events it causes. -/
def WavProgrammeHandler.destroy (h : WavProgrammeHandler) : List Event :=
  match h.fd with
  | some f => [Event.wavfile_close f]
  | none => []

/-- The method `WavProgrammeHandler::onNewAudio`. `opened` counts the sinks opened so far and
names the next one; `openOk` is whether `wavfile_open`, if it is called, returns
a non-null pointer. -/
def WavProgrammeHandler.onNewAudio (opened : Nat) (h : WavProgrammeHandler)
    (audioData : List Int) (sampleRate : Int) (mode : Str) (openOk : Bool) :
    Nat × WavProgrammeHandler × List Event :=
  let r : Nat × WavProgrammeHandler × List Event :=
    if h.rate ≠ sampleRate then
      let line := sidTag h ++ "rate ".toList ++ renderInt sampleRate ++ " mode ".toList ++ mode
      let filename := h.filePrefix ++ ".wav".toList
      let closing := match h.fd with
        | some f => [Event.wavfile_close f]
        | none => []
      let fd : Option Nat := if openOk then some opened else none
      let opened1 := if openOk then opened + 1 else opened
      let failure := match fd with
        | none => [Event.cerr ("Could not open wav file ".toList ++ filename)]
        | some _ => []
      (opened1, { h with fd := fd },
        [Event.cout line] ++ closing ++ [Event.wavfile_open filename sampleRate 2 fd] ++ failure)
    else (opened, h, [])
  let h2 : WavProgrammeHandler := { r.2.1 with rate := sampleRate }
  let writing := match h2.fd with
    | some f => [Event.wavfile_write f audioData]
    | none => []
  (r.1, h2, r.2.2 ++ writing)

/-- The method `WavProgrammeHandler::onNewDynamicLabel`; `timestamp` is `time(NULL)` and
`txtOk` is whether `myfile.open(filename_dls, std::ios_base::app)` succeeds. The
source does not test the stream: after a failed open `myfile << j << endl`
writes nothing. -/
def WavProgrammeHandler.onNewDynamicLabel (h : WavProgrammeHandler) (label : Str)
    (timestamp : Nat) (txtOk : Bool) : WavProgrammeHandler × List Event :=
  let filename_dls := h.filePrefix ++ ".txt".toList
  let j : JsonRecord :=
    { key := "dls".toList,
      fields := [("value".toList, JsonValue.str (trim label)),
                 ("ts".toList, JsonValue.num timestamp)] }
  (h, [Event.cout (sidTag h ++ "DLS: ".toList ++ label),
       if txtOk then Event.file_append filename_dls j else Event.ofstream_fail filename_dls])

/-- The method `WavProgrammeHandler::onMOT`; `timestamp` is `time(NULL)`, `txtOk` is
whether `file_txt.open(filename_txt, std::ios_base::app)` succeeds and `motOk`
whether `file_mot.open(filename_mot)` succeeds. The source tests neither
stream: after a failed open the text sent to the stream is lost, and
`last_size` has been updated before either open. -/
def WavProgrammeHandler.onMOT (h : WavProgrammeHandler) (mot_file : mot_file_t)
    (timestamp : Nat) (txtOk motOk : Bool) : WavProgrammeHandler × List Event :=
  let extension : Str :=
    if mot_file.content_sub_type = 0x01 then "jpg".toList
    else if mot_file.content_sub_type = 0x03 then "png".toList
    else []
  let current_mot_size : Nat := mot_file.data.length % 2 ^ 32
  if current_mot_size = h.last_size then
    (h, [Event.cout (sidTag h ++ "MOT BYPASS (doublon ".toList ++ renderDec h.last_size
          ++ " octets)".toList)])
  else
    let h1 : WavProgrammeHandler := { h with last_size := current_mot_size }
    let filename_mot := h.filePrefix ++ "-".toList ++ renderDec timestamp ++ ".".toList ++ extension
    let filename_txt := h.filePrefix ++ ".txt".toList
    let file : Str :=
      match find_last_of filename_mot "/\\".toList with
      | some i => substr_from filename_mot (i + 1)
      | none => filename_mot
    let j : JsonRecord :=
      { key := "mot".toList,
        fields := [("file".toList, JsonValue.str file),
                   ("content_name".toList, JsonValue.str mot_file.content_name),
                   ("click_through_url".toList, JsonValue.str mot_file.click_through_url),
                   ("category_title".toList, JsonValue.str mot_file.category_title),
                   ("ts".toList, JsonValue.num timestamp)] }
    (h1, [if txtOk then Event.file_append filename_txt j else Event.ofstream_fail filename_txt,
          if motOk then Event.file_write filename_mot mot_file.data
          else Event.ofstream_fail filename_mot,
          Event.cout (sidTag h ++ "MOT reçu ".toList)])

/-! ### Sequences of callbacks -/

/-- One `onNewAudio` call together with the outcome of `wavfile_open` during it. -/
structure AudioCall where
  audioData : List Int
  sampleRate : Int
  mode : Str
  openOk : Bool
  deriving DecidableEq

/-- The `onNewAudio` calls of a list, in order; the events are concatenated. -/
def runAudio (opened : Nat) (h : WavProgrammeHandler) :
    List AudioCall → Nat × WavProgrammeHandler × List Event
  | [] => (opened, h, [])
  | c :: cs =>
    let r := h.onNewAudio opened c.audioData c.sampleRate c.mode c.openOk
    let rest := runAudio r.1 r.2.1 cs
    (rest.1, rest.2.1, r.2.2 ++ rest.2.2)

/-- One `onMOT` call together with the outcomes of its two stream opens. -/
structure MotCall where
  mot_file : mot_file_t
  timestamp : Nat
  txtOk : Bool
  motOk : Bool
  deriving DecidableEq

/-- One `onNewDynamicLabel` call together with the outcome of its stream open. -/
structure DlsCall where
  label : Str
  timestamp : Nat
  txtOk : Bool
  deriving DecidableEq

/-- The `onMOT` calls of a list, in order. -/
def runMOT (h : WavProgrammeHandler) : List MotCall → WavProgrammeHandler × List Event
  | [] => (h, [])
  | c :: cs =>
    let r := h.onMOT c.mot_file c.timestamp c.txtOk c.motOk
    let rest := runMOT r.1 cs
    (rest.1, r.2 ++ rest.2)

/-- The `onNewDynamicLabel` calls of a list, in order. -/
def runDLS (h : WavProgrammeHandler) : List DlsCall → WavProgrammeHandler × List Event
  | [] => (h, [])
  | c :: cs =>
    let r := h.onNewDynamicLabel c.label c.timestamp c.txtOk
    let rest := runDLS r.1 cs
    (rest.1, r.2 ++ rest.2)

/-! ### Observations on a trace -/

/-- The `wavfile_open` calls of a trace: file name, rate, channels, result. -/
def openCalls : List Event → List (Str × Int × Nat × Option Nat)
  | [] => []
  | Event.wavfile_open f r c res :: es => (f, r, c, res) :: openCalls es
  | _ :: es => openCalls es

/-- The sinks closed in a trace, in order. -/
def closeCalls : List Event → List Nat
  | [] => []
  | Event.wavfile_close f :: es => f :: closeCalls es
  | _ :: es => closeCalls es

/-- The `wavfile_write` calls of a trace: sink and samples. -/
def writeCalls : List Event → List (Nat × List Int)
  | [] => []
  | Event.wavfile_write f d :: es => (f, d) :: writeCalls es
  | _ :: es => writeCalls es

/-- All samples written to sink `fd` in a trace, in the order written. -/
def sinkData (fd : Nat) (es : List Event) : List Int :=
  ((writeCalls es).filter (fun w => w.1 = fd)).flatMap (fun w => w.2)

/-- The records appended to log files in a trace: file name and record. -/
def appendCalls : List Event → List (Str × JsonRecord)
  | [] => []
  | Event.file_append f j :: es => (f, j) :: appendCalls es
  | _ :: es => appendCalls es

/-- The image files written in a trace: file name and bytes. -/
def imageWrites : List Event → List (Str × List Nat)
  | [] => []
  | Event.file_write f b :: es => (f, b) :: imageWrites es
  | _ :: es => imageWrites es

/-- The `wavfile_open`, `wavfile_close` and `wavfile_write` calls of a trace, in the
order they were made. -/
def sinkEvents : List Event → List Event
  | [] => []
  | Event.wavfile_open f r c res :: es => Event.wavfile_open f r c res :: sinkEvents es
  | Event.wavfile_close f :: es => Event.wavfile_close f :: sinkEvents es
  | Event.wavfile_write f d :: es => Event.wavfile_write f d :: sinkEvents es
  | _ :: es => sinkEvents es

/-- The streams that failed to open in a trace: their file names, in order. -/
def failedOpens : List Event → List Str
  | [] => []
  | Event.ofstream_fail f :: es => f :: failedOpens es
  | _ :: es => failedOpens es

/-- The sinks that `wavfile_open` returned in a trace, in order. -/
def openedSinks : List Event → List Nat
  | [] => []
  | Event.wavfile_open _ _ _ (some f) :: es => f :: openedSinks es
  | _ :: es => openedSinks es

/-- The effect of one event on the list `cur` of sinks opened and not yet closed. -/
def openStep (cur : List Nat) : Event → List Nat
  | Event.wavfile_open _ _ _ (some f) => f :: cur
  | Event.wavfile_close f => cur.erase f
  | _ => cur

/-- The sinks opened and not yet closed after a trace that started with the sinks
`cur` open. -/
def openSinks (cur : List Nat) (es : List Event) : List Nat :=
  es.foldl openStep cur

/-- The sink protocol at one event, `cur` being the open sink (if any): a sink is
opened only when none is open, and only the open sink is written to or closed.
The result is `none` when the event breaks the protocol, otherwise the sink
open after the event. -/
def sinkStep (cur : Option Nat) : Event → Option (Option Nat)
  | Event.wavfile_open _ _ _ (some f) => if cur = none then some (some f) else none
  | Event.wavfile_close f => if cur = some f then some none else none
  | Event.wavfile_write f _ => if cur = some f then some cur else none
  | _ => some cur

/-- The sink protocol checked along a trace: `none` when some event breaks it,
otherwise the sink left open at the end. -/
def sinkMonitor : Option Nat → List Event → Option (Option Nat)
  | cur, [] => some cur
  | cur, e :: es =>
    match sinkStep cur e with
    | some c => sinkMonitor c es
    | none => none

/-- The events of a frame that arrives at the rate the handler already has: one write
when a sink is open, nothing otherwise. -/
def sameRateEvents (h : WavProgrammeHandler) (audioData : List Int) : List Event :=
  match h.fd with
  | some f => [Event.wavfile_write f audioData]
  | none => []

/-! ## RadioInterface -/

/-- A `float`: NaN, or a number of the type `V` (the two zeros are one number, and
so is each infinity). -/
inductive FloatValue (V : Type) where
  | nan
  | num (v : V)
  deriving DecidableEq

/-- The comparison `a == b` on floats: false when a side is NaN, otherwise equality
of the two numbers. -/
def FloatValue.feq {V : Type} [DecidableEq V] : FloatValue V → FloatValue V → Bool
  | FloatValue.num a, FloatValue.num b => decide (a = b)
  | _, _ => false

/-- The document `j["snr"] = {{"ts", timestamp}, {"value", snr}}` of `onSNR`. -/
structure SnrRecord (V : Type) where
  ts : Nat
  value : FloatValue V
  deriving DecidableEq

/-- The comparison `a == b` of two such JSON documents: member by member, the time
stamps as integers and the values with the float `==`. -/
def SnrRecord.json_eq {V : Type} [DecidableEq V] (a b : SnrRecord V) : Bool :=
  decide (a.ts = b.ts) && a.value.feq b.value

/-- The test `last_snr != j`, that is `!(last_snr == j)`; `last_snr` is `none` while
it is the JSON `null`, which differs from every document. -/
def json_ne {V : Type} [DecidableEq V] (last_snr : Option (SnrRecord V))
    (j : SnrRecord V) : Bool :=
  match last_snr with
  | none => true
  | some l => !(l.json_eq j)

/-- The data members of `class RadioInterface`, without `last_date_time` and the unused
`fic_fd`; `last_snr` is `none` for the initial JSON `null`. -/
structure RadioInterface (V : Type) where
  last_snr : Option (SnrRecord V)
  synced : Bool
  serviceId : Int
  serviceLabel : Str
  ensembleId : Int
  ensembleLabel : Str

/-- A default-constructed `RadioInterface`. -/
def RadioInterface.new (V : Type) : RadioInterface V :=
  { last_snr := none, synced := false, serviceId := 0, serviceLabel := [],
    ensembleId := 0, ensembleLabel := [] }

/-- The method `RadioInterface::onSNR`: the new state and the documents printed on standard
output; `timestamp` is `time(NULL)`. -/
def RadioInterface.onSNR {V : Type} [DecidableEq V] (ri : RadioInterface V)
    (snr : FloatValue V) (timestamp : Nat) : RadioInterface V × List (SnrRecord V) :=
  let j : SnrRecord V := { ts := timestamp, value := snr }
  if json_ne ri.last_snr j then
    ({ ri with last_snr := some j }, [j])
  else (ri, [])

/-- The `onSNR` calls of a list (value, timestamp), in order. -/
def runSNR {V : Type} [DecidableEq V] (ri : RadioInterface V) :
    List (FloatValue V × Nat) → RadioInterface V × List (SnrRecord V)
  | [] => (ri, [])
  | c :: cs =>
    let r := ri.onSNR c.1 c.2
    let rest := runSNR r.1 cs
    (rest.1, r.2 ++ rest.2)

/-! ## Output paths derived in `main` -/

/-- The function `std::isspace` in the "C" locale. -/
def isspace (ch : Char) : Bool :=
  ch = ' ' || ch = '\t' || ch = '\n' || ch = '\x0b' || ch = '\x0c' || ch = '\r'

/-- The statement `s.erase(std::find_if(s.rbegin(), s.rend(), [](int ch) { return
!std::isspace(ch); }).base(), s.end())`: the trailing white space is removed. -/
def eraseTrailingSpace (s : Str) : Str :=
  (s.reverse.dropWhile isspace).reverse

/-- The text `stream.str()` after `stream << "0x" << std::setfill('0') << std::hex <<
s.serviceId`; no width is set, so the fill character never appears. -/
def streamStr (serviceId : Nat) : Str :=
  "0x".toList ++ renderHex serviceId

/-- The directory given to `mkdir`: `options.dump_directory + "/" + stream.str()`. -/
def serviceDirectory (dump_directory : Str) (serviceId : Nat) : Str :=
  dump_directory ++ "/".toList ++ streamStr serviceId

/-- The value of `dumpFilePrefix` handed to the `WavProgrammeHandler` constructor. -/
def dumpFilePrefix (dump_directory : Str) (serviceId : Nat) : Str :=
  eraseTrailingSpace (serviceDirectory dump_directory serviceId ++ "/".toList ++ streamStr serviceId)

/-- The value of a hexadecimal digit character (0 for any other character). -/
def digitVal (c : Char) : Nat :=
  if c = '1' then 1 else if c = '2' then 2 else if c = '3' then 3 else if c = '4' then 4
  else if c = '5' then 5 else if c = '6' then 6 else if c = '7' then 7 else if c = '8' then 8
  else if c = '9' then 9 else if c = 'a' then 10 else if c = 'b' then 11
  else if c = 'c' then 12 else if c = 'd' then 13 else if c = 'e' then 14
  else if c = 'f' then 15 else 0

/-- The number a string of digits denotes in base `b`, most significant digit first. -/
def baseValue (b : Nat) (s : Str) : Nat :=
  s.foldl (fun acc c => acc * b + digitVal c) 0

/-- The name `filename_mot` that `onMOT` gives the image file of an object with the
content sub type `content_sub_type` received at `timestamp`. -/
def filename_mot (filePrefix : Str) (timestamp : Nat) (content_sub_type : Int) : Str :=
  filePrefix ++ "-".toList ++ renderDec timestamp ++ ".".toList ++
    (if content_sub_type = 0x01 then "jpg".toList
     else if content_sub_type = 0x03 then "png".toList
     else [])

/-! # Theorems -/

/-! ## Number rendering -/

theorem digitVal_digitChar (d : Nat) (h : d < 16) : digitVal (digitChar d) = d := by
  interval_cases d <;> rfl

theorem isspace_digitChar (d : Nat) : isspace (digitChar d) = false := by
  unfold digitChar
  split <;> decide

theorem baseValue_append_singleton (b : Nat) (s : Str) (c : Char) :
    baseValue b (s ++ [c]) = baseValue b s * b + digitVal c := by
  simp [baseValue, List.foldl_append]

/-- Reading back the digits written in a base from 2 to 16 gives the number. -/
theorem baseValue_renderBase (b : Nat) (hb2 : 2 ≤ b) (hb16 : b ≤ 16) (fuel n : Nat)
    (h : n < fuel) : baseValue b (renderBase b fuel n) = n := by
  induction fuel generalizing n with
  | zero => omega
  | succ k ih =>
    unfold renderBase
    by_cases hn : n < b
    · rw [if_pos hn]
      simp [baseValue, digitVal_digitChar n (by omega)]
    · have hdiv : n / b < k := by
        have := Nat.div_lt_self (by omega : 0 < n) (by omega : 1 < b)
        omega
      have hmod : n % b < 16 := lt_of_lt_of_le (Nat.mod_lt _ (by omega)) hb16
      rw [if_neg hn, baseValue_append_singleton, ih (n / b) hdiv,
        digitVal_digitChar (n % b) hmod]
      exact Nat.div_add_mod' n b

theorem digitChar_ne_dot (d : Nat) : digitChar d ≠ '.' := by
  unfold digitChar
  split <;> decide

theorem renderBase_no_dot (b fuel n : Nat) : '.' ∉ renderBase b fuel n := by
  induction fuel generalizing n with
  | zero => simp [renderBase]
  | succ k ih =>
    unfold renderBase
    by_cases hn : n < b
    · rw [if_pos hn]
      simpa using (digitChar_ne_dot n).symm
    · rw [if_neg hn]
      simp only [List.mem_append, List.mem_singleton, not_or]
      exact ⟨ih _, (digitChar_ne_dot _).symm⟩

theorem renderDec_injective (a b : Nat) (h : renderDec a = renderDec b) : a = b := by
  have ha := baseValue_renderBase 10 (by decide) (by decide) (a + 1) a (Nat.lt_succ_self a)
  have hb := baseValue_renderBase 10 (by decide) (by decide) (b + 1) b (Nat.lt_succ_self b)
  unfold renderDec at h
  rw [h] at ha
  rw [← ha, hb]

theorem append_cons_left_inj (c : Char) (xs ys us vs : Str) (hx : c ∉ xs) (hy : c ∉ ys)
    (h : xs ++ c :: us = ys ++ c :: vs) : xs = ys := by
  induction xs generalizing ys with
  | nil =>
    cases ys with
    | nil => rfl
    | cons y ys =>
      simp only [List.nil_append, List.cons_append, List.cons.injEq] at h
      exact absurd (List.mem_cons.mpr (Or.inl h.1)) hy
  | cons x xs ih =>
    cases ys with
    | nil =>
      simp only [List.nil_append, List.cons_append, List.cons.injEq] at h
      exact absurd (List.mem_cons.mpr (Or.inl h.1.symm)) hx
    | cons y ys =>
      simp only [List.cons_append, List.cons.injEq] at h
      rw [h.1, ih ys (fun hm => hx (List.mem_cons_of_mem _ hm))
        (fun hm => hy (List.mem_cons_of_mem _ hm)) h.2]

/-- Objects written in different seconds get different image file names. -/
theorem filename_mot_injective (pfx : Str) (t1 t2 : Nat) (s1 s2 : Int)
    (h : filename_mot pfx t1 s1 = filename_mot pfx t2 s2) : t1 = t2 := by
  unfold filename_mot at h
  simp only [List.append_assoc] at h
  have h1 := List.append_cancel_left h
  have h2 := List.append_cancel_left h1
  exact renderDec_injective t1 t2
    (append_cons_left_inj '.' _ _ _ _ (renderBase_no_dot _ _ _) (renderBase_no_dot _ _ _) h2)

/-! ## onMOT: deduplication by byte length -/

/-- The size `onMOT` leaves in `last_size` is the narrowed size of the object it
received, whatever the stream opens do. -/
theorem onMOT_last_size (h : WavProgrammeHandler) (m : mot_file_t) (t : Nat)
    (txtOk motOk : Bool) :
    (h.onMOT m t txtOk motOk).1.last_size = m.data.length % 2 ^ 32 := by
  unfold WavProgrammeHandler.onMOT
  by_cases hc : m.data.length % 2 ^ 32 = h.last_size
  · simp only []
    rw [if_pos hc]
    exact hc.symm
  · simp only []
    rw [if_neg hc]

/-- When the sizes agree `onMOT` leaves the handler alone, opens no stream and writes no
file. -/
theorem onMOT_skip (h : WavProgrammeHandler) (m : mot_file_t) (t : Nat) (txtOk motOk : Bool)
    (hc : m.data.length % 2 ^ 32 = h.last_size) :
    (h.onMOT m t txtOk motOk).1 = h ∧ imageWrites (h.onMOT m t txtOk motOk).2 = [] ∧
      appendCalls (h.onMOT m t txtOk motOk).2 = [] ∧
      failedOpens (h.onMOT m t txtOk motOk).2 = [] := by
  unfold WavProgrammeHandler.onMOT
  simp only []
  rw [if_pos hc]
  simp [imageWrites, appendCalls, failedOpens]

/-- When the sizes differ `onMOT` writes the object if the image stream opens and one
`mot` record if the log stream opens. -/
theorem onMOT_write (h : WavProgrammeHandler) (m : mot_file_t) (t : Nat) (txtOk motOk : Bool)
    (hc : m.data.length % 2 ^ 32 ≠ h.last_size) :
    imageWrites (h.onMOT m t txtOk motOk).2 =
        (if motOk then [(filename_mot h.filePrefix t m.content_sub_type, m.data)] else []) ∧
      (appendCalls (h.onMOT m t txtOk motOk).2).map (fun a => (a.1, a.2.key)) =
        (if txtOk then [(h.filePrefix ++ ".txt".toList, "mot".toList)] else []) := by
  unfold WavProgrammeHandler.onMOT
  simp only []
  rw [if_neg hc]
  cases txtOk <;> cases motOk <;> simp [imageWrites, appendCalls, filename_mot]

theorem runMOT_append (h : WavProgrammeHandler) (xs ys : List MotCall) :
    runMOT h (xs ++ ys) =
      ((runMOT (runMOT h xs).1 ys).1, (runMOT h xs).2 ++ (runMOT (runMOT h xs).1 ys).2) := by
  induction xs generalizing h with
  | nil => simp [runMOT]
  | cons x xs ih => simp [runMOT, ih]

/-- After a run, `last_size` is the narrowed size of the last object delivered,
or still the initial value when nothing was delivered. -/
theorem runMOT_last_size (h : WavProgrammeHandler) (cs : List MotCall) :
    (runMOT h cs).1.last_size =
      match cs.getLast? with
      | none => h.last_size
      | some c => c.mot_file.data.length % 2 ^ 32 := by
  induction cs using List.reverseRecOn with
  | nil => simp [runMOT]
  | append_singleton xs x _ =>
    rw [runMOT_append]
    simp [runMOT, onMOT_last_size]

theorem imageWrites_append (xs ys : List Event) :
    imageWrites (xs ++ ys) = imageWrites xs ++ imageWrites ys := by
  induction xs with
  | nil => rfl
  | cons e es ih => cases e <;> simp [imageWrites, ih]

theorem appendCalls_append (xs ys : List Event) :
    appendCalls (xs ++ ys) = appendCalls xs ++ appendCalls ys := by
  induction xs with
  | nil => rfl
  | cons e es ih => cases e <;> simp [appendCalls, ih]

theorem runMOT_two (h : WavProgrammeHandler) (c1 c2 : MotCall) :
    (runMOT h [c1, c2]).2 =
      (h.onMOT c1.mot_file c1.timestamp c1.txtOk c1.motOk).2 ++
        ((h.onMOT c1.mot_file c1.timestamp c1.txtOk c1.motOk).1.onMOT
          c2.mot_file c2.timestamp c2.txtOk c2.motOk).2 := by
  simp [runMOT]

theorem onMOT_filePrefix (h : WavProgrammeHandler) (m : mot_file_t) (t : Nat)
    (txtOk motOk : Bool) :
    (h.onMOT m t txtOk motOk).1.filePrefix = h.filePrefix := by
  unfold WavProgrammeHandler.onMOT
  by_cases hc : m.data.length % 2 ^ 32 = h.last_size
  · simp only []
    rw [if_pos hc]
  · simp only []
    rw [if_neg hc]

theorem runMOT_filePrefix (h : WavProgrammeHandler) (cs : List MotCall) :
    (runMOT h cs).1.filePrefix = h.filePrefix := by
  induction cs generalizing h with
  | nil => rfl
  | cons c cs ih =>
    simp only [runMOT]
    rw [ih, onMOT_filePrefix]

/-! ## Claims on onMOT -/

/-- C1, as stated, fails on a fresh handler when the first object is empty: two
empty objects (equal byte length) give no write at all instead of one, and an
empty object followed by a one-byte object (differing byte lengths) gives one
write instead of two. Two objects of differing lengths and one content sub type
that arrive within one second are both written to one file name, so one image
file results, not two. When the two stream opens of the first object fail,
two objects of equal length give no image file and no record. And the claim
fails when the lengths differ by 2^32: after an object of 3 bytes an object of
2^32 + 3 bytes is skipped, the size being narrowed to 32 bits. -/
theorem onMOT_two_objects_counterexample :
    (([] : List Nat).length = ([] : List Nat).length ∧
      imageWrites (runMOT (WavProgrammeHandler.new 0x1234 "out/0x1234/0x1234".toList)
        [⟨⟨[], 1, [], [], []⟩, 10, true, true⟩, ⟨⟨[], 1, [], [], []⟩, 11, true, true⟩]).2 = [] ∧
      appendCalls (runMOT (WavProgrammeHandler.new 0x1234 "out/0x1234/0x1234".toList)
        [⟨⟨[], 1, [], [], []⟩, 10, true, true⟩, ⟨⟨[], 1, [], [], []⟩, 11, true, true⟩]).2 = []) ∧
    (([] : List Nat).length ≠ [0xff].length ∧
      (imageWrites (runMOT (WavProgrammeHandler.new 0x1234 "out/0x1234/0x1234".toList)
        [⟨⟨[], 1, [], [], []⟩, 10, true, true⟩,
         ⟨⟨[0xff], 1, [], [], []⟩, 11, true, true⟩]).2).length = 1 ∧
      (appendCalls (runMOT (WavProgrammeHandler.new 0x1234 "out/0x1234/0x1234".toList)
        [⟨⟨[], 1, [], [], []⟩, 10, true, true⟩,
         ⟨⟨[0xff], 1, [], [], []⟩, 11, true, true⟩]).2).length = 1) ∧
    (([1] : List Nat).length ≠ [1, 2].length ∧
      ((imageWrites (runMOT (WavProgrammeHandler.new 0x1234 "out/0x1234/0x1234".toList)
        [⟨⟨[1], 1, [], [], []⟩, 10, true, true⟩,
         ⟨⟨[1, 2], 1, [], [], []⟩, 10, true, true⟩]).2).map
          (fun w => w.1)).dedup = ["out/0x1234/0x1234-10.jpg".toList]) ∧
    (([1, 2, 3] : List Nat).length = [4, 5, 6].length ∧
      imageWrites (runMOT (WavProgrammeHandler.new 0x1234 "out/0x1234/0x1234".toList)
        [⟨⟨[1, 2, 3], 1, [], [], []⟩, 10, false, false⟩,
         ⟨⟨[4, 5, 6], 1, [], [], []⟩, 11, true, true⟩]).2 = [] ∧
      appendCalls (runMOT (WavProgrammeHandler.new 0x1234 "out/0x1234/0x1234".toList)
        [⟨⟨[1, 2, 3], 1, [], [], []⟩, 10, false, false⟩,
         ⟨⟨[4, 5, 6], 1, [], [], []⟩, 11, true, true⟩]).2 = []) ∧
    ((List.replicate 3 0).length ≠ (List.replicate (2 ^ 32 + 3) 0).length ∧
      (imageWrites (runMOT (WavProgrammeHandler.new 0x1234 "out/0x1234/0x1234".toList)
        [⟨⟨List.replicate 3 0, 1, [], [], []⟩, 10, true, true⟩,
         ⟨⟨List.replicate (2 ^ 32 + 3) 0, 1, [], [], []⟩, 11, true, true⟩]).2).length = 1) := by
  refine ⟨by decide, by decide, by decide, by decide, ?_, ?_⟩
  · rw [List.length_replicate, List.length_replicate]
    omega
  · have key : ∀ d1 d2 : List Nat, d2.length % 2 ^ 32 = d1.length % 2 ^ 32 →
        d1.length % 2 ^ 32 ≠ 0 →
        (imageWrites (runMOT (WavProgrammeHandler.new 0x1234 "out/0x1234/0x1234".toList)
          [⟨⟨d1, 1, [], [], []⟩, 10, true, true⟩,
           ⟨⟨d2, 1, [], [], []⟩, 11, true, true⟩]).2).length = 1 := by
      intro d1 d2 h1 h2
      have hk := onMOT_skip ((WavProgrammeHandler.new 0x1234 "out/0x1234/0x1234".toList).onMOT
        ⟨d1, 1, [], [], []⟩ 10 true true).1 ⟨d2, 1, [], [], []⟩ 11 true true
        (by rw [onMOT_last_size]; exact h1)
      have hw := onMOT_write (WavProgrammeHandler.new 0x1234 "out/0x1234/0x1234".toList)
        ⟨d1, 1, [], [], []⟩ 10 true true h2
      rw [runMOT_two]
      simp only []
      rw [imageWrites_append, hk.2.1, List.append_nil, hw.1]
      rfl
    exact key _ _ (by rw [List.length_replicate, List.length_replicate]; omega)
      (by rw [List.length_replicate]; omega)

/-- C1, amended: on a fresh handler, for two consecutive visual objects shorter than
2^32 bytes of which the first is not empty: when the byte lengths are equal only
the first object is processed, and when they differ both are, in order. A
processed object gets its image file written when the image stream opens and
its `mot` record appended when the log stream opens (so with all opens
succeeding: one image file and one record for equal lengths, two image writes
and two records for differing lengths). The two image file names are distinct
when the objects arrive in different seconds. -/
theorem onMOT_two_objects (SId : Nat) (pfx : Str) (c1 c2 : MotCall)
    (hne : c1.mot_file.data ≠ []) (h1 : c1.mot_file.data.length < 2 ^ 32)
    (h2 : c2.mot_file.data.length < 2 ^ 32) :
    (c1.mot_file.data.length = c2.mot_file.data.length →
      imageWrites (runMOT (WavProgrammeHandler.new SId pfx) [c1, c2]).2 =
        (if c1.motOk then
          [(filename_mot pfx c1.timestamp c1.mot_file.content_sub_type, c1.mot_file.data)]
         else []) ∧
      (appendCalls (runMOT (WavProgrammeHandler.new SId pfx) [c1, c2]).2).map
          (fun a => (a.1, a.2.key)) =
        (if c1.txtOk then [(pfx ++ ".txt".toList, "mot".toList)] else [])) ∧
    (c1.mot_file.data.length ≠ c2.mot_file.data.length →
      imageWrites (runMOT (WavProgrammeHandler.new SId pfx) [c1, c2]).2 =
        (if c1.motOk then
          [(filename_mot pfx c1.timestamp c1.mot_file.content_sub_type, c1.mot_file.data)]
         else []) ++
        (if c2.motOk then
          [(filename_mot pfx c2.timestamp c2.mot_file.content_sub_type, c2.mot_file.data)]
         else []) ∧
      (appendCalls (runMOT (WavProgrammeHandler.new SId pfx) [c1, c2]).2).map
          (fun a => (a.1, a.2.key)) =
        (if c1.txtOk then [(pfx ++ ".txt".toList, "mot".toList)] else []) ++
        (if c2.txtOk then [(pfx ++ ".txt".toList, "mot".toList)] else []) ∧
      (c1.timestamp ≠ c2.timestamp →
        filename_mot pfx c1.timestamp c1.mot_file.content_sub_type ≠
          filename_mot pfx c2.timestamp c2.mot_file.content_sub_type)) := by
  have hlen : c1.mot_file.data.length ≠ 0 := fun h0 => hne (List.length_eq_zero.mp h0)
  have hfirst : c1.mot_file.data.length % 2 ^ 32 ≠
      (WavProgrammeHandler.new SId pfx).last_size := by
    rw [Nat.mod_eq_of_lt h1]
    exact hlen
  have hw1 := onMOT_write (WavProgrammeHandler.new SId pfx) c1.mot_file c1.timestamp
    c1.txtOk c1.motOk hfirst
  have hs1 : ((WavProgrammeHandler.new SId pfx).onMOT c1.mot_file c1.timestamp
      c1.txtOk c1.motOk).1.last_size = c1.mot_file.data.length := by
    rw [onMOT_last_size, Nat.mod_eq_of_lt h1]
  have hp1 : ((WavProgrammeHandler.new SId pfx).onMOT c1.mot_file c1.timestamp
      c1.txtOk c1.motOk).1.filePrefix = pfx :=
    onMOT_filePrefix _ _ _ _ _
  have hp0 : (WavProgrammeHandler.new SId pfx).filePrefix = pfx := rfl
  rw [hp0] at hw1
  constructor
  · intro heq
    have hc : c2.mot_file.data.length % 2 ^ 32 =
        ((WavProgrammeHandler.new SId pfx).onMOT c1.mot_file c1.timestamp
          c1.txtOk c1.motOk).1.last_size := by
      rw [hs1, Nat.mod_eq_of_lt h2, heq]
    have hk := onMOT_skip _ c2.mot_file c2.timestamp c2.txtOk c2.motOk hc
    rw [runMOT_two, imageWrites_append, appendCalls_append, hk.2.1, hk.2.2.1,
      List.append_nil, List.append_nil]
    exact hw1
  · intro hneq
    have hc : c2.mot_file.data.length % 2 ^ 32 ≠
        ((WavProgrammeHandler.new SId pfx).onMOT c1.mot_file c1.timestamp
          c1.txtOk c1.motOk).1.last_size := by
      rw [hs1, Nat.mod_eq_of_lt h2]
      exact fun h => hneq h.symm
    have hw2 := onMOT_write _ c2.mot_file c2.timestamp c2.txtOk c2.motOk hc
    rw [hp1] at hw2
    rw [runMOT_two, imageWrites_append, appendCalls_append, List.map_append,
      hw1.1, hw1.2, hw2.1, hw2.2]
    exact ⟨rfl, rfl, fun ht he => ht (filename_mot_injective pfx _ _ _ _ he)⟩

/-- Witness for C1 amended: a three-byte object followed by another three-byte object,
all stream opens succeeding. -/
theorem onMOT_two_objects_witness :
    (([1, 2, 3] : List Nat) ≠ [] ∧ ([1, 2, 3] : List Nat).length = [4, 5, 6].length) ∧
      (imageWrites (runMOT (WavProgrammeHandler.new 0x1234 "d/0x1234".toList)
        [⟨⟨[1, 2, 3], 1, [], [], []⟩, 10, true, true⟩,
         ⟨⟨[4, 5, 6], 3, [], [], []⟩, 11, true, true⟩]).2 =
          [(filename_mot "d/0x1234".toList 10 1, [1, 2, 3])] ∧
      (appendCalls (runMOT (WavProgrammeHandler.new 0x1234 "d/0x1234".toList)
        [⟨⟨[1, 2, 3], 1, [], [], []⟩, 10, true, true⟩,
         ⟨⟨[4, 5, 6], 3, [], [], []⟩, 11, true, true⟩]).2).map
          (fun a => (a.1, a.2.key)) =
        [("d/0x1234".toList ++ ".txt".toList, "mot".toList)]) :=
  ⟨by decide, (onMOT_two_objects 0x1234 "d/0x1234".toList
    ⟨⟨[1, 2, 3], 1, [], [], []⟩, 10, true, true⟩
    ⟨⟨[4, 5, 6], 3, [], [], []⟩, 11, true, true⟩ (by decide) (by decide) (by decide)).1 rfl⟩

/-- C10, as stated, fails when the stream opens fail: the first object, of 3 bytes,
is not written (no image file, no record) although it is not empty, yet
`last_size` becomes 3; and after a one-byte object was written, a two-byte
object whose opens fail is not written although its length differs. -/
theorem onMOT_dedup_counterexample :
    (([1, 2, 3] : List Nat) ≠ [] ∧
      imageWrites ((WavProgrammeHandler.new 0x1234 "out/0x1234/0x1234".toList).onMOT
        ⟨[1, 2, 3], 1, [], [], []⟩ 10 false false).2 = [] ∧
      appendCalls ((WavProgrammeHandler.new 0x1234 "out/0x1234/0x1234".toList).onMOT
        ⟨[1, 2, 3], 1, [], [], []⟩ 10 false false).2 = [] ∧
      ((WavProgrammeHandler.new 0x1234 "out/0x1234/0x1234".toList).onMOT
        ⟨[1, 2, 3], 1, [], [], []⟩ 10 false false).1.last_size = 3) ∧
    (([1, 2] : List Nat).length ≠ [1].length ∧
      imageWrites (runMOT (WavProgrammeHandler.new 0x1234 "out/0x1234/0x1234".toList)
        [⟨⟨[1], 1, [], [], []⟩, 10, true, true⟩,
         ⟨⟨[1, 2], 1, [], [], []⟩, 11, false, false⟩]).2 =
        [("out/0x1234/0x1234-10.jpg".toList, [1])] ∧
      (appendCalls (runMOT (WavProgrammeHandler.new 0x1234 "out/0x1234/0x1234".toList)
        [⟨⟨[1], 1, [], [], []⟩, 10, true, true⟩,
         ⟨⟨[1, 2], 1, [], [], []⟩, 11, false, false⟩]).2).length = 1) := by
  decide

/-- C10, amended: for a sequence of visual objects, each shorter than 2^32 bytes,
delivered to a fresh handler: before each delivery `last_size` is the byte
length of the object delivered just before (0 when there is none), after it the
byte length of the object just delivered, whatever the stream opens do. When
the byte length of the object differs from that of the previous object (from 0
for the first object) the object is processed: its image file is written when
the image stream opens and its `mot` record is appended when the log stream
opens. Otherwise it is skipped: no stream is opened, no image file, no log
record, and the handler is unchanged. -/
theorem onMOT_dedup_by_previous_length (SId : Nat) (pfx : Str)
    (pre : List MotCall) (m : mot_file_t) (t : Nat) (txtOk motOk : Bool)
    (hpre : ∀ c ∈ pre, c.mot_file.data.length < 2 ^ 32) (hm : m.data.length < 2 ^ 32) :
    (runMOT (WavProgrammeHandler.new SId pfx) pre).1.last_size =
        (match pre.getLast? with
          | none => 0
          | some c => c.mot_file.data.length) ∧
    ((runMOT (WavProgrammeHandler.new SId pfx) pre).1.onMOT m t txtOk motOk).1.last_size =
        m.data.length ∧
    (m.data.length ≠ (match pre.getLast? with
          | none => 0
          | some c => c.mot_file.data.length) →
      imageWrites ((runMOT (WavProgrammeHandler.new SId pfx) pre).1.onMOT m t txtOk motOk).2 =
          (if motOk then [(filename_mot pfx t m.content_sub_type, m.data)] else []) ∧
      (appendCalls
          ((runMOT (WavProgrammeHandler.new SId pfx) pre).1.onMOT m t txtOk motOk).2).map
          (fun a => (a.1, a.2.key)) =
        (if txtOk then [(pfx ++ ".txt".toList, "mot".toList)] else [])) ∧
    (m.data.length = (match pre.getLast? with
          | none => 0
          | some c => c.mot_file.data.length) →
      ((runMOT (WavProgrammeHandler.new SId pfx) pre).1.onMOT m t txtOk motOk).1 =
          (runMOT (WavProgrammeHandler.new SId pfx) pre).1 ∧
      imageWrites ((runMOT (WavProgrammeHandler.new SId pfx) pre).1.onMOT m t txtOk motOk).2 =
          [] ∧
      appendCalls ((runMOT (WavProgrammeHandler.new SId pfx) pre).1.onMOT m t txtOk motOk).2 =
          [] ∧
      failedOpens ((runMOT (WavProgrammeHandler.new SId pfx) pre).1.onMOT m t txtOk motOk).2 =
          []) := by
  have hlast : (runMOT (WavProgrammeHandler.new SId pfx) pre).1.last_size =
      (match pre.getLast? with
        | none => 0
        | some c => c.mot_file.data.length) := by
    rw [runMOT_last_size]
    cases hg : pre.getLast? with
    | none => rfl
    | some c =>
      simp only []
      exact Nat.mod_eq_of_lt (hpre c (List.mem_of_getLast?_eq_some hg))
  have hp : (runMOT (WavProgrammeHandler.new SId pfx) pre).1.filePrefix = pfx :=
    runMOT_filePrefix _ _
  refine ⟨hlast, ?_, ?_, ?_⟩
  · rw [onMOT_last_size, Nat.mod_eq_of_lt hm]
  · intro hd
    have hc : m.data.length % 2 ^ 32 ≠
        (runMOT (WavProgrammeHandler.new SId pfx) pre).1.last_size := by
      rw [hlast, Nat.mod_eq_of_lt hm]
      exact hd
    have hw := onMOT_write _ m t txtOk motOk hc
    rw [hp] at hw
    exact hw
  · intro he
    have hc : m.data.length % 2 ^ 32 =
        (runMOT (WavProgrammeHandler.new SId pfx) pre).1.last_size := by
      rw [hlast, Nat.mod_eq_of_lt hm]
      exact he
    exact onMOT_skip _ m t txtOk motOk hc

/-- Witness for C10 amended: after a two-byte and a three-byte object, another
three-byte object is skipped. -/
theorem onMOT_dedup_by_previous_length_witness :
    (runMOT (WavProgrammeHandler.new 7 "p".toList)
        [⟨⟨[1, 2], 1, [], [], []⟩, 5, true, true⟩,
         ⟨⟨[1, 2, 3], 1, [], [], []⟩, 6, true, false⟩]).1.last_size = 3 ∧
    imageWrites ((runMOT (WavProgrammeHandler.new 7 "p".toList)
        [⟨⟨[1, 2], 1, [], [], []⟩, 5, true, true⟩,
         ⟨⟨[1, 2, 3], 1, [], [], []⟩, 6, true, false⟩]).1.onMOT
          ⟨[7, 8, 9], 1, [], [], []⟩ 7 true true).2 = [] :=
  have h := onMOT_dedup_by_previous_length 7 "p".toList
    [⟨⟨[1, 2], 1, [], [], []⟩, 5, true, true⟩, ⟨⟨[1, 2, 3], 1, [], [], []⟩, 6, true, false⟩]
    ⟨[7, 8, 9], 1, [], [], []⟩ 7 true true (by decide) (by decide)
  ⟨h.1, (h.2.2.2 rfl).2.1⟩

/-! ## Claim on onSNR -/

theorem feq_num {V : Type} [DecidableEq V] (a b : V) :
    (FloatValue.num a).feq (FloatValue.num b) = true ↔ a = b := by
  simp [FloatValue.feq]

theorem feq_nan_left {V : Type} [DecidableEq V] (v : FloatValue V) :
    FloatValue.nan.feq v = false := by
  cases v <;> rfl

theorem feq_nan_right {V : Type} [DecidableEq V] (v : FloatValue V) :
    v.feq FloatValue.nan = false := by
  cases v <;> rfl

/-- Two floats that compare equal are the same number. -/
theorem eq_of_feq {V : Type} [DecidableEq V] (v w : FloatValue V) (h : v.feq w = true) :
    v = w := by
  cases v with
  | nan => rw [feq_nan_left] at h; cases h
  | num a =>
    cases w with
    | nan => rw [feq_nan_right] at h; cases h
    | num b => rw [(feq_num a b).mp h]

/-- After every call `last_snr` holds the document of that call. -/
theorem onSNR_last_snr {V : Type} [DecidableEq V] (ri : RadioInterface V)
    (v : FloatValue V) (t : Nat) :
    (ri.onSNR v t).1.last_snr = some { ts := t, value := v } := by
  unfold RadioInterface.onSNR
  simp only []
  cases hne : json_ne ri.last_snr { ts := t, value := v } with
  | true => simp
  | false =>
    simp only [Bool.false_eq_true, if_false]
    cases hl : ri.last_snr with
    | none => rw [hl] at hne; simp [json_ne] at hne
    | some l =>
      rw [hl] at hne
      simp only [json_ne, Bool.not_eq_false', SnrRecord.json_eq, Bool.and_eq_true,
        decide_eq_true_eq] at hne
      obtain ⟨lt, lv⟩ := l
      simp only at hne
      rw [hne.1, eq_of_feq lv v hne.2]

theorem onSNR_after {V : Type} [DecidableEq V] (ri : RadioInterface V)
    (v1 v2 : FloatValue V) (t1 t2 : Nat) :
    ((ri.onSNR v1 t1).1.onSNR v2 t2).2 =
      if t1 = t2 ∧ v1.feq v2 = true then [] else [{ ts := t2, value := v2 }] := by
  have hl := onSNR_last_snr ri v1 t1
  have hstep : ∀ r : RadioInterface V, r.last_snr = some { ts := t1, value := v1 } →
      (r.onSNR v2 t2).2 =
        if t1 = t2 ∧ v1.feq v2 = true then [] else [{ ts := t2, value := v2 }] := by
    intro r hr
    unfold RadioInterface.onSNR
    simp only [hr, json_ne, SnrRecord.json_eq]
    by_cases ht : t1 = t2
    · cases hv : v1.feq v2 <;> simp [ht]
    · simp [ht]
  exact hstep _ hl

theorem runSNR_repeat {V : Type} [DecidableEq V] (ri : RadioInterface V) (a : V) (t n : Nat)
    (hl : ri.last_snr = some { ts := t, value := FloatValue.num a }) :
    runSNR ri (List.replicate n (FloatValue.num a, t)) = (ri, []) := by
  induction n with
  | zero => rfl
  | succ n ih =>
    have h1 : ri.onSNR (FloatValue.num a) t = (ri, []) := by
      unfold RadioInterface.onSNR
      simp [hl, json_ne, SnrRecord.json_eq, FloatValue.feq]
    simp [List.replicate_succ, runSNR, h1, ih]

theorem onSNR_nan {V : Type} [DecidableEq V] (ri : RadioInterface V) (t : Nat) :
    (ri.onSNR FloatValue.nan t).2 = [{ ts := t, value := FloatValue.nan }] := by
  unfold RadioInterface.onSNR
  cases hl : ri.last_snr with
  | none => simp [json_ne]
  | some l => simp [json_ne, SnrRecord.json_eq, feq_nan_right]

theorem runSNR_nan {V : Type} [DecidableEq V] (ri : RadioInterface V) (t n : Nat) :
    (runSNR ri (List.replicate n (FloatValue.nan, t))).2 =
      List.replicate n { ts := t, value := FloatValue.nan } := by
  induction n generalizing ri with
  | zero => rfl
  | succ n ih =>
    simp only [List.replicate_succ, runSNR]
    rw [onSNR_nan, ih]
    rfl

/-- C2, as stated, fails in two ways. The value 7 reported at second 100 and again,
unchanged, at second 101 is printed twice, because the compared document holds
the time stamp. And a NaN reported twice within second 100 is printed twice,
because the float comparison of a NaN with itself is false. -/
theorem onSNR_same_value_counterexample :
    ((((RadioInterface.new Int).onSNR (FloatValue.num 7) 100).1.onSNR
        (FloatValue.num 7) 101).2 = [{ ts := 101, value := FloatValue.num 7 }] ∧
      (runSNR (RadioInterface.new Int) [(FloatValue.num 7, 100), (FloatValue.num 7, 101)]).2 =
        [{ ts := 100, value := FloatValue.num 7 }, { ts := 101, value := FloatValue.num 7 }]) ∧
    ((((RadioInterface.new Int).onSNR FloatValue.nan 100).1.onSNR FloatValue.nan 100).2 =
        [{ ts := 100, value := FloatValue.nan }] ∧
      (runSNR (RadioInterface.new Int) [(FloatValue.nan, 100), (FloatValue.nan, 100)]).2 =
        [{ ts := 100, value := FloatValue.nan }, { ts := 100, value := FloatValue.nan }]) := by
  decide

/-- C2, amended: for consecutive `onSNR` calls on one RadioInterface in any state, the
later call prints no record exactly when its time stamp (in seconds) equals that
of the call just before and the two values compare equal as floats, which needs
both to be numbers (not NaN) and the same number; in every other case (another
value, another second, or a NaN on either side) it prints its record. The first
call on a new RadioInterface prints its record, so a run of calls with one
number within one second prints exactly one record, while a run of n calls
with NaN prints n records. -/
theorem onSNR_suppression {V : Type} [DecidableEq V] (ri : RadioInterface V)
    (v1 v2 : FloatValue V) (a b : V) (t1 t2 n : Nat) :
    ((ri.onSNR v1 t1).1.onSNR v2 t2).2 =
        (if t1 = t2 ∧ v1.feq v2 = true then [] else [{ ts := t2, value := v2 }]) ∧
    ((FloatValue.num a).feq (FloatValue.num b) = true ↔ a = b) ∧
    FloatValue.nan.feq v2 = false ∧ v1.feq FloatValue.nan = false ∧
    ((RadioInterface.new V).onSNR v1 t1).2 = [{ ts := t1, value := v1 }] ∧
    (runSNR (RadioInterface.new V) (List.replicate (n + 1) (FloatValue.num a, t1))).2 =
        [{ ts := t1, value := FloatValue.num a }] ∧
    (runSNR ri (List.replicate n (FloatValue.nan, t1))).2 =
        List.replicate n { ts := t1, value := FloatValue.nan } := by
  have hfirst : ∀ v : FloatValue V,
      ((RadioInterface.new V).onSNR v t1).2 = [{ ts := t1, value := v }] := by
    intro v
    simp [RadioInterface.onSNR, RadioInterface.new, json_ne]
  refine ⟨onSNR_after ri v1 v2 t1 t2, feq_num a b, feq_nan_left v2, feq_nan_right v1,
    hfirst v1, ?_, runSNR_nan ri t1 n⟩
  rw [List.replicate_succ]
  simp only [runSNR]
  rw [runSNR_repeat _ a t1 n (onSNR_last_snr _ _ t1), hfirst]
  simp

/-! ## trim and onNewDynamicLabel -/

theorem find_first_not_of_none (s set : Str) (h : find_first_not_of s set = none) :
    ∀ c ∈ s, c ∈ set := by
  induction s with
  | nil => simp
  | cons a as ih =>
    unfold find_first_not_of at h
    by_cases ha : a ∈ set
    · rw [if_pos ha] at h
      have h2 : find_first_not_of as set = none := by
        cases hf : find_first_not_of as set with
        | none => rfl
        | some j => rw [hf] at h; simp at h
      intro c hc
      rcases List.mem_cons.mp hc with rfl | hc
      · exact ha
      · exact ih h2 c hc
    · rw [if_neg ha] at h
      simp at h

theorem find_first_not_of_some (s set : Str) (i : Nat) (h : find_first_not_of s set = some i) :
    (∀ c ∈ s.take i, c ∈ set) ∧ ∃ c, (s.drop i).head? = some c ∧ c ∉ set := by
  induction s generalizing i with
  | nil => simp [find_first_not_of] at h
  | cons a as ih =>
    unfold find_first_not_of at h
    by_cases ha : a ∈ set
    · rw [if_pos ha] at h
      cases hf : find_first_not_of as set with
      | none => rw [hf] at h; simp at h
      | some j =>
        rw [hf] at h
        simp only [Option.map_some', Option.some.injEq] at h
        subst h
        obtain ⟨h1, h2⟩ := ih j hf
        refine ⟨?_, ?_⟩
        · intro c hc
          rw [List.take_succ_cons] at hc
          rcases List.mem_cons.mp hc with rfl | hc
          · exact ha
          · exact h1 c hc
        · simpa using h2
    · rw [if_neg ha] at h
      simp only [Option.some.injEq] at h
      subst h
      exact ⟨by simp, a, by simp, ha⟩

theorem find_last_not_of_none (s set : Str) (h : find_last_not_of s set = none) :
    ∀ c ∈ s, c ∈ set := by
  induction s with
  | nil => simp
  | cons a as ih =>
    unfold find_last_not_of at h
    cases hf : find_last_not_of as set with
    | some j => rw [hf] at h; simp at h
    | none =>
      rw [hf] at h
      simp only [] at h
      by_cases ha : a ∈ set
      · intro c hc
        rcases List.mem_cons.mp hc with rfl | hc
        · exact ha
        · exact ih hf c hc
      · rw [if_neg ha] at h
        simp at h

theorem find_last_not_of_some (s set : Str) (e : Nat) (h : find_last_not_of s set = some e) :
    (∀ c ∈ s.drop (e + 1), c ∈ set) ∧ ∃ c, (s.take (e + 1)).getLast? = some c ∧ c ∉ set := by
  induction s generalizing e with
  | nil => simp [find_last_not_of] at h
  | cons a as ih =>
    unfold find_last_not_of at h
    cases hf : find_last_not_of as set with
    | some j =>
      rw [hf] at h
      simp only [Option.some.injEq] at h
      subst h
      obtain ⟨h1, c, h2, h3⟩ := ih j hf
      refine ⟨by simpa using h1, c, ?_, h3⟩
      rw [List.take_succ_cons]
      cases ht : List.take (j + 1) as with
      | nil => rw [ht] at h2; simp at h2
      | cons b bs =>
        rw [ht] at h2
        rw [List.getLast?_cons_cons]
        exact h2
    | none =>
      rw [hf] at h
      simp only [] at h
      by_cases ha : a ∈ set
      · rw [if_pos ha] at h
        simp at h
      · rw [if_neg ha] at h
        simp only [Option.some.injEq] at h
        subst h
        refine ⟨?_, a, by simp, ha⟩
        simpa using find_last_not_of_none as set hf

/-- What `ltrim` removes is a run of white space, and what is left does not start with
white space. -/
theorem ltrim_spec (s : Str) :
    ∃ pre, s = pre ++ ltrim s ∧ (∀ c ∈ pre, c ∈ WHITESPACE) ∧
      ∀ c, (ltrim s).head? = some c → c ∉ WHITESPACE := by
  unfold ltrim
  cases hf : find_first_not_of s WHITESPACE with
  | none =>
    exact ⟨s, by simp, find_first_not_of_none s _ hf, by simp⟩
  | some i =>
    obtain ⟨h1, c, h2, h3⟩ := find_first_not_of_some s _ i hf
    refine ⟨s.take i, by simp [substr_from], h1, ?_⟩
    intro d hd
    simp only [substr_from] at hd
    rw [h2] at hd
    cases hd
    exact h3

/-- What `rtrim` removes is a run of white space, and what is left does not end with
white space. -/
theorem rtrim_spec (s : Str) :
    ∃ suf, s = rtrim s ++ suf ∧ (∀ c ∈ suf, c ∈ WHITESPACE) ∧
      ∀ c, (rtrim s).getLast? = some c → c ∉ WHITESPACE := by
  unfold rtrim
  cases hf : find_last_not_of s WHITESPACE with
  | none =>
    exact ⟨s, by simp, find_last_not_of_none s _ hf, by simp⟩
  | some e =>
    obtain ⟨h1, c, h2, h3⟩ := find_last_not_of_some s _ e hf
    refine ⟨s.drop (e + 1), by simp [substr_to], h1, ?_⟩
    intro d hd
    simp only [substr_to] at hd
    rw [h2] at hd
    cases hd
    exact h3

/-- The text `trim` returns is the label without a leading and a trailing run of
white space, and it neither starts nor ends with white space. -/
theorem trim_spec (s : Str) :
    ∃ pre suf, s = pre ++ trim s ++ suf ∧
      (∀ c ∈ pre, c ∈ WHITESPACE) ∧ (∀ c ∈ suf, c ∈ WHITESPACE) ∧
      (∀ c, (trim s).head? = some c → c ∉ WHITESPACE) ∧
      (∀ c, (trim s).getLast? = some c → c ∉ WHITESPACE) := by
  obtain ⟨pre, hpre, hpw, hhead⟩ := ltrim_spec s
  obtain ⟨suf, hsuf, hsw, hlast⟩ := rtrim_spec (ltrim s)
  refine ⟨pre, suf, ?_, hpw, hsw, ?_, hlast⟩
  · unfold trim
    rw [List.append_assoc, ← hsuf, ← hpre]
  · intro c hc
    apply hhead c
    unfold trim at hc
    rw [hsuf]
    cases hr : rtrim (ltrim s) with
    | nil => rw [hr] at hc; simp at hc
    | cons a as => rw [hr] at hc; simpa using hc

theorem trim_all_whitespace (s : Str) (h : ∀ c ∈ s, c ∈ WHITESPACE) : trim s = [] := by
  obtain ⟨pre, suf, hs, _, _, hhead, _⟩ := trim_spec s
  cases ht : trim s with
  | nil => rfl
  | cons a as =>
    exfalso
    apply hhead a (by rw [ht]; rfl)
    apply h
    rw [hs, ht]
    simp

theorem runDLS_appendCalls (h : WavProgrammeHandler) (calls : List DlsCall) :
    (runDLS h calls).1 = h ∧
    appendCalls (runDLS h calls).2 =
      (calls.filter (fun c => c.txtOk)).map (fun c => (h.filePrefix ++ ".txt".toList,
        { key := "dls".toList,
          fields := [("value".toList, JsonValue.str (trim c.label)),
                     ("ts".toList, JsonValue.num c.timestamp)] })) ∧
    failedOpens (runDLS h calls).2 =
      (calls.filter (fun c => !c.txtOk)).map (fun _ => h.filePrefix ++ ".txt".toList) := by
  induction calls with
  | nil => exact ⟨rfl, rfl, rfl⟩
  | cons c cs ih =>
    obtain ⟨i1, i2, i3⟩ := ih
    have hst : (h.onNewDynamicLabel c.label c.timestamp c.txtOk).1 = h := rfl
    simp only [runDLS, hst]
    refine ⟨i1, ?_, ?_⟩
    · rw [appendCalls_append, i2]
      cases hok : c.txtOk <;>
        simp [WavProgrammeHandler.onNewDynamicLabel, appendCalls, List.filter_cons, hok]
    · have hfa : ∀ xs ys : List Event, failedOpens (xs ++ ys) = failedOpens xs ++ failedOpens ys := by
        intro xs ys
        induction xs with
        | nil => rfl
        | cons e es ihx => cases e <;> simp [failedOpens, ihx]
      rw [hfa, i3]
      cases hok : c.txtOk <;>
        simp [WavProgrammeHandler.onNewDynamicLabel, failedOpens, List.filter_cons, hok]

/-- C7, as stated, fails when the open of `<prefix>.txt` fails, which the source does
not test: the call appends no record. One call with a failing open gives no
record, and of two calls with the label "Hello" the second of which fails to
open the file, one record results. -/
theorem onNewDynamicLabel_counterexample :
    appendCalls (runDLS (WavProgrammeHandler.new 0x1234 "out/0x1234/0x1234".toList)
      [⟨"Hello".toList, 1, false⟩]).2 = [] ∧
    (appendCalls (runDLS (WavProgrammeHandler.new 0x1234 "out/0x1234/0x1234".toList)
      [⟨"Hello".toList, 1, true⟩, ⟨"Hello".toList, 2, false⟩]).2).length = 1 := by
  decide

/-- C7, amended: every `onNewDynamicLabel` call whose open of `<prefix>.txt` succeeds
appends exactly one `dls` record to that file, repeated labels included, and a
call whose open fails appends nothing: the records appended are those of the
calls that opened the file, in call order, each holding `trim(label)` and the
time stamp of its call; when every open succeeds n calls give n records, two
for "Hello" then "Hello". `trim(label)` is the label without a leading run and
a trailing run of white space (space, \n, \r, \t, \f, \v); both runs are
maximal, since the result neither starts nor ends with white space, and the
result is empty when the label is all white space. -/
theorem onNewDynamicLabel_records (h : WavProgrammeHandler) (calls : List DlsCall)
    (label : Str) :
    appendCalls (runDLS h calls).2 =
      (calls.filter (fun c => c.txtOk)).map (fun c => (h.filePrefix ++ ".txt".toList,
        { key := "dls".toList,
          fields := [("value".toList, JsonValue.str (trim c.label)),
                     ("ts".toList, JsonValue.num c.timestamp)] })) ∧
    ((∀ c ∈ calls, c.txtOk = true) →
      appendCalls (runDLS h calls).2 =
        calls.map (fun c => (h.filePrefix ++ ".txt".toList,
          { key := "dls".toList,
            fields := [("value".toList, JsonValue.str (trim c.label)),
                       ("ts".toList, JsonValue.num c.timestamp)] })) ∧
      (appendCalls (runDLS h calls).2).length = calls.length) ∧
    (appendCalls (runDLS h [⟨"Hello".toList, 1, true⟩, ⟨"Hello".toList, 1, true⟩]).2).length
      = 2 ∧
    (∃ pre suf, label = pre ++ trim label ++ suf ∧
      (∀ c ∈ pre, c ∈ [' ', '\n', '\r', '\t', '\x0c', '\x0b']) ∧
      (∀ c ∈ suf, c ∈ [' ', '\n', '\r', '\t', '\x0c', '\x0b']) ∧
      (∀ c, (trim label).head? = some c → c ∉ [' ', '\n', '\r', '\t', '\x0c', '\x0b']) ∧
      (∀ c, (trim label).getLast? = some c → c ∉ [' ', '\n', '\r', '\t', '\x0c', '\x0b'])) ∧
    ((∀ c ∈ label, c ∈ [' ', '\n', '\r', '\t', '\x0c', '\x0b']) → trim label = []) := by
  refine ⟨(runDLS_appendCalls h calls).2.1, ?_, ?_, trim_spec label,
    trim_all_whitespace label⟩
  · intro hall
    have hf : calls.filter (fun c => c.txtOk) = calls :=
      List.filter_eq_self.mpr (fun c hc => hall c hc)
    have := (runDLS_appendCalls h calls).2.1
    rw [hf] at this
    exact ⟨this, by rw [this, List.length_map]⟩
  · rw [(runDLS_appendCalls h _).2.1]
    rfl

/-! ## Output paths -/

theorem renderBase_ends_with_digit (b fuel n : Nat) :
    ∃ init d, renderBase b (fuel + 1) n = init ++ [digitChar d] := by
  unfold renderBase
  by_cases hn : n < b
  · rw [if_pos hn]
    exact ⟨[], n, rfl⟩
  · rw [if_neg hn]
    exact ⟨_, _, rfl⟩

theorem renderHex_injective (a b : Nat) (h : renderHex a = renderHex b) : a = b := by
  have ha := baseValue_renderBase 16 (by decide) (by decide) (a + 1) a (Nat.lt_succ_self a)
  have hb := baseValue_renderBase 16 (by decide) (by decide) (b + 1) b (Nat.lt_succ_self b)
  unfold renderHex at h
  rw [h] at ha
  rw [← ha, hb]

theorem streamStr_injective (a b : Nat) (h : streamStr a = streamStr b) : a = b := by
  unfold streamStr at h
  exact renderHex_injective a b (List.append_cancel_left h)

theorem eraseTrailingSpace_of_last (xs : Str) (c : Char) (hc : isspace c = false) :
    eraseTrailingSpace (xs ++ [c]) = xs ++ [c] := by
  unfold eraseTrailingSpace
  rw [List.reverse_append, List.reverse_singleton, List.singleton_append,
    List.dropWhile_cons_of_neg (by simp [hc])]
  simp

/-- The white-space removal in `main` leaves the derived prefix as it was, because the
prefix ends with a hexadecimal digit. -/
theorem dumpFilePrefix_eq (dir : Str) (a : Nat) :
    dumpFilePrefix dir a = serviceDirectory dir a ++ "/".toList ++ streamStr a := by
  obtain ⟨init, d, hd⟩ := renderBase_ends_with_digit 16 a a
  unfold dumpFilePrefix
  have hs : streamStr a = ("0x".toList ++ init) ++ [digitChar d] := by
    unfold streamStr renderHex
    rw [hd, List.append_assoc]
  rw [hs, ← List.append_assoc, ← List.append_assoc]
  exact eraseTrailingSpace_of_last _ _ (isspace_digitChar d)

/-- C8: for a fixed dump directory, two distinct service identifiers give distinct
directories (the argument of `mkdir`) and distinct file prefixes (the value given
to the handler after the trailing white space is removed). -/
theorem dumpFilePrefix_injective (dir : Str) (a b : Nat) (hab : a ≠ b) :
    serviceDirectory dir a ≠ serviceDirectory dir b ∧
    dumpFilePrefix dir a ≠ dumpFilePrefix dir b := by
  have hdir : serviceDirectory dir a ≠ serviceDirectory dir b := by
    intro h
    unfold serviceDirectory at h
    exact hab (streamStr_injective a b (List.append_cancel_left h))
  refine ⟨hdir, ?_⟩
  intro h
  rw [dumpFilePrefix_eq, dumpFilePrefix_eq] at h
  unfold serviceDirectory at h
  simp only [List.append_assoc] at h
  have h2 := List.append_cancel_left h
  have h3 := List.append_cancel_left h2
  have hlen := congrArg List.length h3
  simp only [List.length_append] at hlen
  have hl : (streamStr a).length = (streamStr b).length := by omega
  exact hab (streamStr_injective a b (List.append_inj_left h3 hl))

/-- Witness for C8: the identifiers 0x1001 and 0x1002 under the directory `out`. -/
theorem dumpFilePrefix_injective_witness :
    (0x1001 : Nat) ≠ 0x1002 ∧
    (serviceDirectory "out".toList 0x1001 ≠ serviceDirectory "out".toList 0x1002 ∧
      dumpFilePrefix "out".toList 0x1001 ≠ dumpFilePrefix "out".toList 0x1002) :=
  ⟨by decide, dumpFilePrefix_injective "out".toList 0x1001 0x1002 (by decide)⟩

/-! ## onNewAudio -/

theorem openCalls_append (xs ys : List Event) :
    openCalls (xs ++ ys) = openCalls xs ++ openCalls ys := by
  induction xs with
  | nil => rfl
  | cons e es ih => cases e <;> simp [openCalls, ih]

theorem closeCalls_append (xs ys : List Event) :
    closeCalls (xs ++ ys) = closeCalls xs ++ closeCalls ys := by
  induction xs with
  | nil => rfl
  | cons e es ih => cases e <;> simp [closeCalls, ih]

theorem writeCalls_append (xs ys : List Event) :
    writeCalls (xs ++ ys) = writeCalls xs ++ writeCalls ys := by
  induction xs with
  | nil => rfl
  | cons e es ih => cases e <;> simp [writeCalls, ih]

theorem openedSinks_append (xs ys : List Event) :
    openedSinks (xs ++ ys) = openedSinks xs ++ openedSinks ys := by
  induction xs with
  | nil => rfl
  | cons e es ih =>
    cases e with
    | wavfile_open f r c res => cases res <;> simp [openedSinks, ih]
    | _ => simp [openedSinks, ih]

/-- A frame at the current rate leaves the handler and the counter alone. -/
theorem onNewAudio_same_rate (n : Nat) (h : WavProgrammeHandler) (data : List Int)
    (r : Int) (mode : Str) (ok : Bool) (hr : h.rate = r) :
    h.onNewAudio n data r mode ok = (n, h, sameRateEvents h data) := by
  subst hr
  unfold WavProgrammeHandler.onNewAudio sameRateEvents
  simp

/-- A frame at another rate: the open sink is closed, one `wavfile_open` call is made,
and the samples are written when it succeeded. -/
theorem onNewAudio_rate_change (n : Nat) (h : WavProgrammeHandler) (data : List Int)
    (r : Int) (mode : Str) (ok : Bool) (hr : h.rate ≠ r) :
    (h.onNewAudio n data r mode ok).1 = (if ok then n + 1 else n) ∧
    (h.onNewAudio n data r mode ok).2.1 =
      { h with fd := (if ok then some n else none), rate := r } ∧
    openCalls (h.onNewAudio n data r mode ok).2.2 =
      [(h.filePrefix ++ ".wav".toList, r, 2, if ok then some n else none)] ∧
    closeCalls (h.onNewAudio n data r mode ok).2.2 = h.fd.toList ∧
    writeCalls (h.onNewAudio n data r mode ok).2.2 = (if ok then [(n, data)] else []) := by
  unfold WavProgrammeHandler.onNewAudio
  simp only [ne_eq, hr, not_false_eq_true, if_true]
  cases ok <;> cases hfd : h.fd <;>
    simp [openCalls, closeCalls, writeCalls]

theorem runAudio_append (n : Nat) (h : WavProgrammeHandler) (xs ys : List AudioCall) :
    runAudio n h (xs ++ ys) =
      ((runAudio (runAudio n h xs).1 (runAudio n h xs).2.1 ys).1,
       (runAudio (runAudio n h xs).1 (runAudio n h xs).2.1 ys).2.1,
       (runAudio n h xs).2.2 ++ (runAudio (runAudio n h xs).1 (runAudio n h xs).2.1 ys).2.2) := by
  induction xs generalizing n h with
  | nil => simp [runAudio]
  | cons x xs ih => simp [runAudio, ih]

/-- Frames at the current rate: no open, no close, the handler unchanged, one write per
frame when a sink is open. -/
theorem runAudio_same_rate (n : Nat) (h : WavProgrammeHandler) (cs : List AudioCall)
    (hcs : ∀ c ∈ cs, c.sampleRate = h.rate) :
    runAudio n h cs = (n, h, cs.flatMap (fun c => sameRateEvents h c.audioData)) := by
  induction cs with
  | nil => rfl
  | cons c cs ih =>
    have hc : h.rate = c.sampleRate := (hcs c (List.mem_cons_self _ _)).symm
    have ih2 := ih (fun d hd => hcs d (List.mem_cons_of_mem _ hd))
    simp only [runAudio, onNewAudio_same_rate n h c.audioData c.sampleRate c.mode c.openOk hc,
      ih2, List.flatMap_cons]

theorem writeCalls_sameRate (h : WavProgrammeHandler) (cs : List AudioCall) :
    writeCalls (cs.flatMap (fun c => sameRateEvents h c.audioData)) =
      match h.fd with
      | some f => cs.map (fun c => (f, c.audioData))
      | none => [] := by
  induction cs with
  | nil => cases h.fd <;> rfl
  | cons c cs ih =>
    rw [List.flatMap_cons, writeCalls_append, ih]
    unfold sameRateEvents
    cases h.fd <;> simp [writeCalls]

theorem openCalls_sameRate (h : WavProgrammeHandler) (cs : List AudioCall) :
    openCalls (cs.flatMap (fun c => sameRateEvents h c.audioData)) = [] := by
  induction cs with
  | nil => rfl
  | cons c cs ih =>
    rw [List.flatMap_cons, openCalls_append, ih]
    unfold sameRateEvents
    cases h.fd <;> simp [openCalls]

theorem closeCalls_sameRate (h : WavProgrammeHandler) (cs : List AudioCall) :
    closeCalls (cs.flatMap (fun c => sameRateEvents h c.audioData)) = [] := by
  induction cs with
  | nil => rfl
  | cons c cs ih =>
    rw [List.flatMap_cons, closeCalls_append, ih]
    unfold sameRateEvents
    cases h.fd <;> simp [closeCalls]

theorem flatMap_sameRate_closed (h : WavProgrammeHandler) (cs : List AudioCall)
    (hfd : h.fd = none) :
    cs.flatMap (fun c => sameRateEvents h c.audioData) = [] := by
  induction cs with
  | nil => rfl
  | cons c cs ih =>
    rw [List.flatMap_cons, ih]
    unfold sameRateEvents
    rw [hfd]
    rfl

/-- A rate change followed by frames at the new rate, from any handler state. -/
theorem runAudio_change_then_same (n : Nat) (h : WavProgrammeHandler) (c : AudioCall)
    (post : List AudioCall) (hchg : h.rate ≠ c.sampleRate)
    (hpost : ∀ d ∈ post, d.sampleRate = c.sampleRate) :
    (runAudio n h (c :: post)).1 = (if c.openOk then n + 1 else n) ∧
    (runAudio n h (c :: post)).2.1 =
      { h with fd := (if c.openOk then some n else none), rate := c.sampleRate } ∧
    openCalls (runAudio n h (c :: post)).2.2 =
      [(h.filePrefix ++ ".wav".toList, c.sampleRate, 2,
        if c.openOk then some n else none)] ∧
    closeCalls (runAudio n h (c :: post)).2.2 = h.fd.toList ∧
    writeCalls (runAudio n h (c :: post)).2.2 =
      (if c.openOk then (c :: post).map (fun d => (n, d.audioData)) else []) := by
  obtain ⟨h1, h2, h3, h4, h5⟩ :=
    onNewAudio_rate_change n h c.audioData c.sampleRate c.mode c.openOk hchg
  have hrun := runAudio_same_rate (h.onNewAudio n c.audioData c.sampleRate c.mode c.openOk).1
    (h.onNewAudio n c.audioData c.sampleRate c.mode c.openOk).2.1 post
    (by rw [h2]; exact hpost)
  simp only [runAudio, hrun]
  refine ⟨h1, h2, ?_, ?_, ?_⟩
  · rw [openCalls_append, h3, openCalls_sameRate, List.append_nil]
  · rw [closeCalls_append, h4, closeCalls_sameRate, List.append_nil]
  · rw [writeCalls_append, h5, writeCalls_sameRate, h2]
    cases c.openOk <;> simp

theorem filter_map_same (f : Nat) (cs : List AudioCall) :
    (((cs.map (fun d => (f, d.audioData))).filter (fun w => w.1 = f)).flatMap
      (fun w => w.2)) = cs.flatMap (fun d => d.audioData) := by
  induction cs with
  | nil => rfl
  | cons c cs ih => simp [List.filter_cons, List.flatMap_cons, ih]

theorem sinkData_map_same (f : Nat) (cs : List AudioCall) (es : List Event)
    (h : writeCalls es = cs.map (fun d => (f, d.audioData))) :
    sinkData f es = cs.flatMap (fun d => d.audioData) := by
  unfold sinkData
  rw [h]
  exact filter_map_same f cs

theorem openedSinks_eq_filterMap (es : List Event) :
    openedSinks es = (openCalls es).filterMap (fun o => o.2.2.2) := by
  induction es with
  | nil => rfl
  | cons e es ih =>
    cases e with
    | wavfile_open f r c res => cases res <;> simp [openedSinks, openCalls, ih]
    | _ => simp [openedSinks, openCalls, ih]

/-- One call keeps the sink identifiers below the counter: the counter does not
decrease, the open sink and every sink written to lie below it, and the file
prefix stays. -/
theorem onNewAudio_inv (n : Nat) (h : WavProgrammeHandler) (data : List Int) (r : Int)
    (mode : Str) (ok : Bool) (hinv : ∀ f, h.fd = some f → f < n) :
    n ≤ (h.onNewAudio n data r mode ok).1 ∧
    (∀ f, (h.onNewAudio n data r mode ok).2.1.fd = some f →
      f < (h.onNewAudio n data r mode ok).1) ∧
    (∀ w ∈ writeCalls (h.onNewAudio n data r mode ok).2.2,
      w.1 < (h.onNewAudio n data r mode ok).1) ∧
    (∀ g ∈ openedSinks (h.onNewAudio n data r mode ok).2.2,
      n ≤ g ∧ g < (h.onNewAudio n data r mode ok).1) ∧
    (openedSinks (h.onNewAudio n data r mode ok).2.2).Nodup ∧
    (h.onNewAudio n data r mode ok).2.1.filePrefix = h.filePrefix := by
  by_cases hr : h.rate = r
  · rw [onNewAudio_same_rate n h data r mode ok hr]
    unfold sameRateEvents
    cases hfd : h.fd with
    | none => simp [writeCalls, openedSinks]
    | some f => simpa [writeCalls, openedSinks] using hinv f hfd
  · obtain ⟨h1, h2, h3, _, h5⟩ := onNewAudio_rate_change n h data r mode ok hr
    rw [openedSinks_eq_filterMap, h1, h2, h3, h5]
    cases ok <;> simp

theorem runAudio_inv (n : Nat) (h : WavProgrammeHandler) (cs : List AudioCall)
    (hinv : ∀ f, h.fd = some f → f < n) :
    n ≤ (runAudio n h cs).1 ∧
    (∀ f, (runAudio n h cs).2.1.fd = some f → f < (runAudio n h cs).1) ∧
    (∀ w ∈ writeCalls (runAudio n h cs).2.2, w.1 < (runAudio n h cs).1) ∧
    (∀ g ∈ openedSinks (runAudio n h cs).2.2, n ≤ g ∧ g < (runAudio n h cs).1) ∧
    (openedSinks (runAudio n h cs).2.2).Nodup ∧
    (runAudio n h cs).2.1.filePrefix = h.filePrefix := by
  induction cs generalizing n h with
  | nil => simpa [runAudio, writeCalls, openedSinks] using hinv
  | cons c cs ih =>
    obtain ⟨a1, a2, a3, a4, a5, a6⟩ :=
      onNewAudio_inv n h c.audioData c.sampleRate c.mode c.openOk hinv
    obtain ⟨b1, b2, b3, b4, b5, b6⟩ := ih _ _ a2
    simp only [runAudio]
    refine ⟨le_trans a1 b1, b2, ?_, ?_, ?_, b6.trans a6⟩
    · intro w hw
      rw [writeCalls_append] at hw
      rcases List.mem_append.mp hw with hw | hw
      · exact lt_of_lt_of_le (a3 w hw) b1
      · exact b3 w hw
    · intro g hg
      rw [openedSinks_append] at hg
      rcases List.mem_append.mp hg with hg | hg
      · exact ⟨(a4 g hg).1, lt_of_lt_of_le (a4 g hg).2 b1⟩
      · exact ⟨le_trans a1 (b4 g hg).1, (b4 g hg).2⟩
    · rw [openedSinks_append]
      refine List.nodup_append.mpr ⟨a5, b5, ?_⟩
      intro g hg1 hg2
      have := (a4 g hg1).2
      have := (b4 g hg2).1
      omega

/-- Frames at the current rate, then a rate change, then frames at the new rate, from
a handler that holds the open sink `old`. -/
theorem runAudio_rotation (n : Nat) (h : WavProgrammeHandler) (old : Nat)
    (mid post : List AudioCall) (c : AudioCall) (hfd : h.fd = some old)
    (hmid : ∀ d ∈ mid, d.sampleRate = h.rate) (hchg : c.sampleRate ≠ h.rate)
    (hpost : ∀ d ∈ post, d.sampleRate = c.sampleRate) :
    closeCalls (runAudio n h (mid ++ c :: post)).2.2 = [old] ∧
    openCalls (runAudio n h (mid ++ c :: post)).2.2 =
      [(h.filePrefix ++ ".wav".toList, c.sampleRate, 2,
        if c.openOk then some n else none)] ∧
    writeCalls (runAudio n h (mid ++ c :: post)).2.2 =
      mid.map (fun d => (old, d.audioData)) ++
        (if c.openOk then (c :: post).map (fun d => (n, d.audioData)) else []) ∧
    (runAudio n h (mid ++ c :: post)).2.1.fd = (if c.openOk then some n else none) := by
  have hm := runAudio_same_rate n h mid hmid
  obtain ⟨_, k2, k3, k4, k5⟩ :=
    runAudio_change_then_same n h c post (fun he => hchg he.symm) hpost
  rw [runAudio_append, hm]
  simp only []
  refine ⟨?_, ?_, ?_, ?_⟩
  · rw [closeCalls_append, closeCalls_sameRate, k4, hfd]
    rfl
  · rw [openCalls_append, openCalls_sameRate, k3]
    rfl
  · rw [writeCalls_append, writeCalls_sameRate, k5, hfd]
  · rw [k2]

theorem sinkData_of_lt (n : Nat) (es : List Event) (h : ∀ w ∈ writeCalls es, w.1 < n) :
    sinkData n es = [] := by
  unfold sinkData
  have hf : (writeCalls es).filter (fun w => w.1 = n) = [] := by
    rw [List.filter_eq_nil_iff]
    intro w hw
    have := h w hw
    simp only [decide_eq_true_eq]
    omega
  rw [hf]
  rfl

/-! ## Claims on onNewAudio -/

/-- C3, as stated, fails in two ways. Frames that all carry the sample rate 0, the
value `rate` starts with, never reach `wavfile_open`: no sink is opened and the
samples are written nowhere. And when `wavfile_open` returns a null pointer for
frames at 48000 Hz, no sink is opened and the samples are written nowhere. -/
theorem onNewAudio_single_rate_counterexample :
    (openCalls (runAudio 0 (WavProgrammeHandler.new 0x1234 "d/0x1234".toList)
        [⟨[1, 2], 0, "m".toList, true⟩, ⟨[3, 4], 0, "m".toList, true⟩]).2.2 = [] ∧
      writeCalls (runAudio 0 (WavProgrammeHandler.new 0x1234 "d/0x1234".toList)
        [⟨[1, 2], 0, "m".toList, true⟩, ⟨[3, 4], 0, "m".toList, true⟩]).2.2 = []) ∧
    (openedSinks (runAudio 0 (WavProgrammeHandler.new 0x1234 "d/0x1234".toList)
        [⟨[1, 2], 48000, "m".toList, false⟩, ⟨[3, 4], 48000, "m".toList, false⟩]).2.2 = [] ∧
      writeCalls (runAudio 0 (WavProgrammeHandler.new 0x1234 "d/0x1234".toList)
        [⟨[1, 2], 48000, "m".toList, false⟩, ⟨[3, 4], 48000, "m".toList, false⟩]).2.2 = []) := by
  decide

/-- C3, amended: for a non-empty sequence of frames that share one sample rate other
than 0, delivered to a fresh handler, `wavfile_open` is called exactly once (on
`<prefix>.wav`, with that rate and 2 channels) and nothing is closed. When the
call succeeds, exactly one sink is opened, every write goes to it, and the data
written to it is the concatenation of the frames' samples in arrival order. When
the call fails, no sink is opened and nothing is written. -/
theorem onNewAudio_single_rate (n SId : Nat) (pfx : Str) (c : AudioCall)
    (cs : List AudioCall) (hr : c.sampleRate ≠ 0)
    (hcs : ∀ d ∈ cs, d.sampleRate = c.sampleRate) :
    openCalls (runAudio n (WavProgrammeHandler.new SId pfx) (c :: cs)).2.2 =
      [(pfx ++ ".wav".toList, c.sampleRate, 2, if c.openOk then some n else none)] ∧
    closeCalls (runAudio n (WavProgrammeHandler.new SId pfx) (c :: cs)).2.2 = [] ∧
    (c.openOk = true →
      openedSinks (runAudio n (WavProgrammeHandler.new SId pfx) (c :: cs)).2.2 = [n] ∧
      writeCalls (runAudio n (WavProgrammeHandler.new SId pfx) (c :: cs)).2.2 =
        (c :: cs).map (fun d => (n, d.audioData)) ∧
      sinkData n (runAudio n (WavProgrammeHandler.new SId pfx) (c :: cs)).2.2 =
        (c :: cs).flatMap (fun d => d.audioData)) ∧
    (c.openOk = false →
      openedSinks (runAudio n (WavProgrammeHandler.new SId pfx) (c :: cs)).2.2 = [] ∧
      writeCalls (runAudio n (WavProgrammeHandler.new SId pfx) (c :: cs)).2.2 = []) := by
  have hchg : (WavProgrammeHandler.new SId pfx).rate ≠ c.sampleRate := fun h => hr h.symm
  obtain ⟨_, _, ho, hc, hw⟩ :=
    runAudio_change_then_same n (WavProgrammeHandler.new SId pfx) c cs hchg hcs
  refine ⟨ho, hc, ?_, ?_⟩
  · intro hok
    rw [hok] at ho hw
    simp only [if_true] at ho hw
    refine ⟨?_, hw, sinkData_map_same n (c :: cs) _ hw⟩
    rw [openedSinks_eq_filterMap, ho]
    rfl
  · intro hok
    rw [hok] at ho hw
    refine ⟨?_, by simpa using hw⟩
    rw [openedSinks_eq_filterMap, ho]
    rfl

/-- Witness for C3 amended: two frames at 48000 Hz, the open succeeding. -/
theorem onNewAudio_single_rate_witness :
    ((48000 : Int) ≠ 0 ∧ true = true) ∧
    openedSinks (runAudio 0 (WavProgrammeHandler.new 0x1234 "d/0x1234".toList)
        [⟨[1, 2], 48000, "m".toList, true⟩, ⟨[3, 4], 48000, "m".toList, false⟩]).2.2 = [0] ∧
    writeCalls (runAudio 0 (WavProgrammeHandler.new 0x1234 "d/0x1234".toList)
        [⟨[1, 2], 48000, "m".toList, true⟩, ⟨[3, 4], 48000, "m".toList, false⟩]).2.2 =
      [(0, [1, 2]), (0, [3, 4])] ∧
    sinkData 0 (runAudio 0 (WavProgrammeHandler.new 0x1234 "d/0x1234".toList)
        [⟨[1, 2], 48000, "m".toList, true⟩, ⟨[3, 4], 48000, "m".toList, false⟩]).2.2 =
      [1, 2, 3, 4] :=
  ⟨by decide, (onNewAudio_single_rate 0 0x1234 "d/0x1234".toList
    ⟨[1, 2], 48000, "m".toList, true⟩ [⟨[3, 4], 48000, "m".toList, false⟩]
    (by decide) (by decide)).2.2.1 rfl⟩

/-- C5, as stated, fails: in Scenario A the two opens name one and the same file
`<prefix>.wav`, so the distinct files opened are one, not two. -/
theorem scenarioA_counterexample :
    (openCalls (runAudio 0 (WavProgrammeHandler.new 0x1234 "d/0x1234".toList)
        [⟨[1], 48000, "m".toList, true⟩, ⟨[2], 48000, "m".toList, true⟩,
         ⟨[3], 32000, "m".toList, true⟩]).2.2).length = 2 ∧
    ((openCalls (runAudio 0 (WavProgrammeHandler.new 0x1234 "d/0x1234".toList)
        [⟨[1], 48000, "m".toList, true⟩, ⟨[2], 48000, "m".toList, true⟩,
         ⟨[3], 32000, "m".toList, true⟩]).2.2).map (fun o => o.1)).dedup =
      ["d/0x1234.wav".toList] := by
  decide

/-- C5, amended: in Scenario A (rates 48000, 48000, 32000 on a fresh handler) there are
exactly two sink-open events, the first at 48000 Hz and the second at 32000 Hz,
both with 2 channels and both on the one path `<prefix>.wav`, so the distinct
paths opened are one. The calls on sinks are, in this order: the first open;
when it succeeded the writes of the first two frames and the close of its
sink; then the second open; when that succeeded the write of the third frame.
So the sink of the first open is closed before the second open is made. -/
theorem scenarioA_two_opens_one_path (n SId : Nat) (pfx : Str) (d1 d2 d3 : List Int)
    (m1 m2 m3 : Str) (ok1 ok2 ok3 : Bool) :
    sinkEvents (runAudio n (WavProgrammeHandler.new SId pfx)
        [⟨d1, 48000, m1, ok1⟩, ⟨d2, 48000, m2, ok2⟩, ⟨d3, 32000, m3, ok3⟩]).2.2 =
      [Event.wavfile_open (pfx ++ ".wav".toList) 48000 2 (if ok1 then some n else none)] ++
      (if ok1 then
        [Event.wavfile_write n d1, Event.wavfile_write n d2, Event.wavfile_close n]
       else []) ++
      [Event.wavfile_open (pfx ++ ".wav".toList) 32000 2
        (if ok3 then some (if ok1 then n + 1 else n) else none)] ++
      (if ok3 then [Event.wavfile_write (if ok1 then n + 1 else n) d3] else []) ∧
    openCalls (runAudio n (WavProgrammeHandler.new SId pfx)
        [⟨d1, 48000, m1, ok1⟩, ⟨d2, 48000, m2, ok2⟩, ⟨d3, 32000, m3, ok3⟩]).2.2 =
      [(pfx ++ ".wav".toList, 48000, 2, if ok1 then some n else none),
       (pfx ++ ".wav".toList, 32000, 2,
          if ok3 then some (if ok1 then n + 1 else n) else none)] ∧
    ((openCalls (runAudio n (WavProgrammeHandler.new SId pfx)
        [⟨d1, 48000, m1, ok1⟩, ⟨d2, 48000, m2, ok2⟩, ⟨d3, 32000, m3, ok3⟩]).2.2).map
          (fun o => o.1)).dedup = [pfx ++ ".wav".toList] ∧
    closeCalls (runAudio n (WavProgrammeHandler.new SId pfx)
        [⟨d1, 48000, m1, ok1⟩, ⟨d2, 48000, m2, ok2⟩, ⟨d3, 32000, m3, ok3⟩]).2.2 =
      (if ok1 then [n] else []) := by
  cases ok1 <;> cases ok2 <;> cases ok3 <;>
    simp [runAudio, WavProgrammeHandler.onNewAudio, WavProgrammeHandler.new, openCalls,
      closeCalls, sinkEvents]

/-- C6: when a frame makes the handler call `wavfile_open` and the call fails, the
callback still returns: no sink is open afterwards and the frame's samples are
not written. Every following frame at that same rate causes no event at all
(no write, no further open) and leaves the handler as it is. The next frame at a
different rate makes exactly one `wavfile_open` call. -/
theorem onNewAudio_open_failure (n : Nat) (h : WavProgrammeHandler) (c d : AudioCall)
    (post : List AudioCall) (hchg : h.rate ≠ c.sampleRate) (hfail : c.openOk = false)
    (hpost : ∀ e ∈ post, e.sampleRate = c.sampleRate)
    (hd : d.sampleRate ≠ c.sampleRate) :
    (h.onNewAudio n c.audioData c.sampleRate c.mode c.openOk).1 = n ∧
    (h.onNewAudio n c.audioData c.sampleRate c.mode c.openOk).2.1 =
      { h with fd := none, rate := c.sampleRate } ∧
    openCalls (h.onNewAudio n c.audioData c.sampleRate c.mode c.openOk).2.2 =
      [(h.filePrefix ++ ".wav".toList, c.sampleRate, 2, none)] ∧
    writeCalls (h.onNewAudio n c.audioData c.sampleRate c.mode c.openOk).2.2 = [] ∧
    runAudio n { h with fd := none, rate := c.sampleRate } post =
      (n, { h with fd := none, rate := c.sampleRate }, []) ∧
    openCalls ((runAudio n { h with fd := none, rate := c.sampleRate } post).2.1.onNewAudio
        n d.audioData d.sampleRate d.mode d.openOk).2.2 =
      [(h.filePrefix ++ ".wav".toList, d.sampleRate, 2, if d.openOk then some n else none)] ∧
    closeCalls ((runAudio n { h with fd := none, rate := c.sampleRate } post).2.1.onNewAudio
        n d.audioData d.sampleRate d.mode d.openOk).2.2 = [] := by
  obtain ⟨h1, h2, h3, _, h5⟩ :=
    onNewAudio_rate_change n h c.audioData c.sampleRate c.mode c.openOk hchg
  rw [hfail] at h1 h2 h3 h5
  have hrun : runAudio n { h with fd := none, rate := c.sampleRate } post =
      (n, { h with fd := none, rate := c.sampleRate }, []) := by
    rw [runAudio_same_rate n _ post hpost, flatMap_sameRate_closed _ post rfl]
  have hchg2 : ({ h with fd := none, rate := c.sampleRate } : WavProgrammeHandler).rate ≠
      d.sampleRate := fun he => hd he.symm
  obtain ⟨_, _, k3, k4, _⟩ := onNewAudio_rate_change n
    { h with fd := none, rate := c.sampleRate } d.audioData d.sampleRate d.mode d.openOk hchg2
  rw [hfail, hrun]
  exact ⟨by simpa using h1, by simpa using h2, by simpa using h3, by simpa using h5, rfl,
    k3, k4⟩

/-- Witness for C6: a fresh handler, a failing open at 48000 Hz, one more frame at
48000 Hz, then a frame at 32000 Hz. -/
theorem onNewAudio_open_failure_witness :
    ((WavProgrammeHandler.new 0x1234 "d/0x1234".toList).rate ≠ 48000 ∧ false = false) ∧
    runAudio 0 { WavProgrammeHandler.new 0x1234 "d/0x1234".toList with
        fd := none, rate := 48000 } [⟨[3, 4], 48000, "m".toList, true⟩] =
      (0, { WavProgrammeHandler.new 0x1234 "d/0x1234".toList with
        fd := none, rate := 48000 }, []) :=
  ⟨by decide, (onNewAudio_open_failure 0 (WavProgrammeHandler.new 0x1234 "d/0x1234".toList)
    ⟨[1, 2], 48000, "m".toList, false⟩ ⟨[5], 32000, "m".toList, true⟩
    [⟨[3, 4], 48000, "m".toList, true⟩] (by decide) rfl (by decide) (by decide)).2.2.2.2.1⟩

/-- C4, as stated, fails when `wavfile_open` returns a null pointer at the rate
change: the handler holds the open sink 0 at 48000 Hz, the frame at 32000 Hz
closes it, no new sink is opened, and the samples of that frame and of the next
frame at 32000 Hz are written to no sink. -/
theorem onNewAudio_rotation_counterexample :
    (runAudio 0 (WavProgrammeHandler.new 0x1234 "d/0x1234".toList)
        [⟨[1, 2], 48000, "m".toList, true⟩]).2.1.fd = some 0 ∧
    (runAudio 0 (WavProgrammeHandler.new 0x1234 "d/0x1234".toList)
        [⟨[1, 2], 48000, "m".toList, true⟩]).2.1.rate = 48000 ∧
    closeCalls (runAudio 1 (runAudio 0 (WavProgrammeHandler.new 0x1234 "d/0x1234".toList)
        [⟨[1, 2], 48000, "m".toList, true⟩]).2.1
        [⟨[3, 4], 32000, "m".toList, false⟩, ⟨[5], 32000, "m".toList, true⟩]).2.2 = [0] ∧
    openedSinks (runAudio 1 (runAudio 0 (WavProgrammeHandler.new 0x1234 "d/0x1234".toList)
        [⟨[1, 2], 48000, "m".toList, true⟩]).2.1
        [⟨[3, 4], 32000, "m".toList, false⟩, ⟨[5], 32000, "m".toList, true⟩]).2.2 = [] ∧
    writeCalls (runAudio 1 (runAudio 0 (WavProgrammeHandler.new 0x1234 "d/0x1234".toList)
        [⟨[1, 2], 48000, "m".toList, true⟩]).2.1
        [⟨[3, 4], 32000, "m".toList, false⟩, ⟨[5], 32000, "m".toList, true⟩]).2.2 = [] := by
  decide

/-- C4, amended: take a handler reached from a fresh one by any calls `pre` that holds
an open sink `old`; deliver frames `mid` at the current rate, then a frame `c` at
a different rate, then frames `post` at the rate of `c`. Then exactly one sink is
closed (`old`) and `wavfile_open` is called exactly once, on `<prefix>.wav` with
the new rate and 2 channels. The frames `mid` are written to `old` only. When the
open succeeds its sink is new (different from `old`, and nothing was written to
it before), and `c` and the frames `post` are written to it only, so no frame
is written to two sinks; when the open fails, `c` and `post` are not written. -/
theorem onNewAudio_rotation (n0 SId : Nat) (pfx : Str) (pre mid post : List AudioCall)
    (c : AudioCall) (old : Nat)
    (hopen : (runAudio n0 (WavProgrammeHandler.new SId pfx) pre).2.1.fd = some old)
    (hmid : ∀ d ∈ mid,
      d.sampleRate = (runAudio n0 (WavProgrammeHandler.new SId pfx) pre).2.1.rate)
    (hchg : c.sampleRate ≠ (runAudio n0 (WavProgrammeHandler.new SId pfx) pre).2.1.rate)
    (hpost : ∀ d ∈ post, d.sampleRate = c.sampleRate) :
    closeCalls (runAudio (runAudio n0 (WavProgrammeHandler.new SId pfx) pre).1
        (runAudio n0 (WavProgrammeHandler.new SId pfx) pre).2.1 (mid ++ c :: post)).2.2 =
      [old] ∧
    openCalls (runAudio (runAudio n0 (WavProgrammeHandler.new SId pfx) pre).1
        (runAudio n0 (WavProgrammeHandler.new SId pfx) pre).2.1 (mid ++ c :: post)).2.2 =
      [(pfx ++ ".wav".toList, c.sampleRate, 2,
        if c.openOk then some (runAudio n0 (WavProgrammeHandler.new SId pfx) pre).1
        else none)] ∧
    old ≠ (runAudio n0 (WavProgrammeHandler.new SId pfx) pre).1 ∧
    sinkData (runAudio n0 (WavProgrammeHandler.new SId pfx) pre).1
      (runAudio n0 (WavProgrammeHandler.new SId pfx) pre).2.2 = [] ∧
    writeCalls (runAudio (runAudio n0 (WavProgrammeHandler.new SId pfx) pre).1
        (runAudio n0 (WavProgrammeHandler.new SId pfx) pre).2.1 (mid ++ c :: post)).2.2 =
      mid.map (fun d => (old, d.audioData)) ++
        (if c.openOk then
          (c :: post).map (fun d =>
            ((runAudio n0 (WavProgrammeHandler.new SId pfx) pre).1, d.audioData))
        else []) := by
  have hinv := runAudio_inv n0 (WavProgrammeHandler.new SId pfx) pre
    (by intro f hf; simp [WavProgrammeHandler.new] at hf)
  obtain ⟨_, i2, i3, _, _, i6⟩ := hinv
  obtain ⟨r1, r2, r3, _⟩ := runAudio_rotation
    (runAudio n0 (WavProgrammeHandler.new SId pfx) pre).1
    (runAudio n0 (WavProgrammeHandler.new SId pfx) pre).2.1 old mid post c hopen hmid hchg hpost
  rw [i6] at r2
  exact ⟨r1, r2, Nat.ne_of_lt (i2 old hopen), sinkData_of_lt _ _ i3, r3⟩

/-- Witness for C4 amended: one frame at 48000 Hz opens sink 0, a second one follows,
then a frame at 32000 Hz whose open succeeds, then one more at 32000 Hz. -/
theorem onNewAudio_rotation_witness :
    (runAudio 0 (WavProgrammeHandler.new 0x1234 "d/0x1234".toList)
        [⟨[1, 2], 48000, "m".toList, true⟩]).2.1.fd = some 0 ∧
    writeCalls (runAudio (runAudio 0 (WavProgrammeHandler.new 0x1234 "d/0x1234".toList)
          [⟨[1, 2], 48000, "m".toList, true⟩]).1
        (runAudio 0 (WavProgrammeHandler.new 0x1234 "d/0x1234".toList)
          [⟨[1, 2], 48000, "m".toList, true⟩]).2.1
        ([⟨[3], 48000, "m".toList, true⟩] ++
          ⟨[4, 5], 32000, "m".toList, true⟩ :: [⟨[6], 32000, "m".toList, true⟩])).2.2 =
      [(0, [3])] ++ [(1, [4, 5]), (1, [6])] :=
  ⟨by decide, (onNewAudio_rotation 0 0x1234 "d/0x1234".toList
    [⟨[1, 2], 48000, "m".toList, true⟩] [⟨[3], 48000, "m".toList, true⟩]
    [⟨[6], 32000, "m".toList, true⟩] ⟨[4, 5], 32000, "m".toList, true⟩ 0
    (by decide) (by decide) (by decide) (by decide)).2.2.2.2⟩

/-! ## Sink lifecycle -/

theorem sinkMonitor_append (cur : Option Nat) (xs ys : List Event) :
    sinkMonitor cur (xs ++ ys) =
      match sinkMonitor cur xs with
      | some c => sinkMonitor c ys
      | none => none := by
  induction xs generalizing cur with
  | nil => rfl
  | cons e es ih =>
    simp only [List.cons_append, sinkMonitor]
    cases sinkStep cur e with
    | none => rfl
    | some c => exact ih c

theorem onNewAudio_monitor (n : Nat) (h : WavProgrammeHandler) (data : List Int) (r : Int)
    (mode : Str) (ok : Bool) :
    sinkMonitor h.fd (h.onNewAudio n data r mode ok).2.2 =
      some (h.onNewAudio n data r mode ok).2.1.fd := by
  by_cases hr : h.rate = r
  · rw [onNewAudio_same_rate n h data r mode ok hr]
    unfold sameRateEvents
    cases hfd : h.fd <;> simp [sinkMonitor, sinkStep]
  · unfold WavProgrammeHandler.onNewAudio
    simp only [ne_eq, hr, not_false_eq_true, if_true]
    cases ok <;> cases hfd : h.fd <;> simp [sinkMonitor, sinkStep]

theorem runAudio_monitor (n : Nat) (h : WavProgrammeHandler) (cs : List AudioCall) :
    sinkMonitor h.fd (runAudio n h cs).2.2 = some (runAudio n h cs).2.1.fd := by
  induction cs generalizing n h with
  | nil => rfl
  | cons c cs ih =>
    simp only [runAudio]
    rw [sinkMonitor_append, onNewAudio_monitor]
    exact ih _ _

theorem destroy_monitor (h : WavProgrammeHandler) :
    sinkMonitor h.fd h.destroy = some none := by
  unfold WavProgrammeHandler.destroy
  cases hfd : h.fd <;> simp [sinkMonitor, sinkStep]

theorem openStep_of_sinkStep (cur c : Option Nat) (e : Event) (h : sinkStep cur e = some c) :
    openStep cur.toList e = c.toList := by
  cases e with
  | wavfile_open f r ch res =>
    cases res with
    | none =>
      simp only [sinkStep, Option.some.injEq] at h
      subst h
      rfl
    | some g =>
      simp only [sinkStep] at h
      by_cases hc : cur = none
      · rw [if_pos hc] at h
        simp only [Option.some.injEq] at h
        subst h
        subst hc
        rfl
      · rw [if_neg hc] at h
        simp at h
  | wavfile_close f =>
    simp only [sinkStep] at h
    by_cases hc : cur = some f
    · rw [if_pos hc] at h
      simp only [Option.some.injEq] at h
      subst h
      subst hc
      simp [openStep]
    · rw [if_neg hc] at h
      simp at h
  | wavfile_write f d =>
    simp only [sinkStep] at h
    by_cases hc : cur = some f
    · rw [if_pos hc] at h
      simp only [Option.some.injEq] at h
      subst h
      rfl
    · rw [if_neg hc] at h
      simp at h
  | cout l => simp only [sinkStep, Option.some.injEq] at h; subst h; rfl
  | cerr l => simp only [sinkStep, Option.some.injEq] at h; subst h; rfl
  | file_append f j => simp only [sinkStep, Option.some.injEq] at h; subst h; rfl
  | file_write f b => simp only [sinkStep, Option.some.injEq] at h; subst h; rfl
  | ofstream_fail f => simp only [sinkStep, Option.some.injEq] at h; subst h; rfl

/-- A trace that keeps the sink protocol leaves open exactly the sink the monitor ends
with. -/
theorem openSinks_of_monitor (cur c : Option Nat) (es : List Event)
    (h : sinkMonitor cur es = some c) : openSinks cur.toList es = c.toList := by
  induction es generalizing cur with
  | nil =>
    simp only [sinkMonitor, Option.some.injEq] at h
    subst h
    rfl
  | cons e es ih =>
    simp only [sinkMonitor] at h
    cases hs : sinkStep cur e with
    | none => rw [hs] at h; simp at h
    | some c1 =>
      rw [hs] at h
      simp only [openSinks, List.foldl_cons]
      rw [openStep_of_sinkStep cur c1 e hs]
      exact ih c1 h

/-- Every prefix of a trace that keeps the sink protocol keeps it, and just before an
event that opens a sink no sink is open. -/
theorem monitor_take (cur c : Option Nat) (es : List Event)
    (h : sinkMonitor cur es = some c) (k : Nat) :
    ∃ c1, sinkMonitor cur (es.take k) = some c1 ∧
      ∀ f r ch g, es[k]? = some (Event.wavfile_open f r ch (some g)) → c1 = none := by
  induction es generalizing cur k with
  | nil => exact ⟨cur, by simp [sinkMonitor], by simp⟩
  | cons e es ih =>
    simp only [sinkMonitor] at h
    cases hs : sinkStep cur e with
    | none => rw [hs] at h; simp at h
    | some c1 =>
      rw [hs] at h
      cases k with
      | zero =>
        refine ⟨cur, by simp [sinkMonitor], ?_⟩
        intro f r ch g he
        simp only [List.getElem?_cons_zero, Option.some.injEq] at he
        subst he
        simp only [sinkStep] at hs
        by_contra hne
        rw [if_neg hne] at hs
        simp at hs
      | succ k =>
        obtain ⟨c2, hc2, hopen⟩ := ih c1 h k
        refine ⟨c2, ?_, ?_⟩
        · simp only [List.take_succ_cons, sinkMonitor, hs]
          exact hc2
        · intro f r ch g he
          rw [List.getElem?_cons_succ] at he
          exact hopen f r ch g he

theorem sinkStep_counts (cur c : Option Nat) (e : Event) (h : sinkStep cur e = some c)
    (g : Nat) :
    (closeCalls [e]).count g + c.toList.count g =
      (openedSinks [e]).count g + cur.toList.count g := by
  cases e with
  | wavfile_open f r ch res =>
    cases res with
    | none =>
      simp only [sinkStep, Option.some.injEq] at h
      subst h
      simp [closeCalls, openedSinks]
    | some g1 =>
      simp only [sinkStep] at h
      by_cases hc : cur = none
      · rw [if_pos hc] at h
        simp only [Option.some.injEq] at h
        subst h
        subst hc
        simp [closeCalls, openedSinks]
      · rw [if_neg hc] at h
        simp at h
  | wavfile_close f =>
    simp only [sinkStep] at h
    by_cases hc : cur = some f
    · rw [if_pos hc] at h
      simp only [Option.some.injEq] at h
      subst h
      subst hc
      simp [closeCalls, openedSinks]
    · rw [if_neg hc] at h
      simp at h
  | wavfile_write f d =>
    simp only [sinkStep] at h
    by_cases hc : cur = some f
    · rw [if_pos hc] at h
      simp only [Option.some.injEq] at h
      subst h
      simp [closeCalls, openedSinks]
    · rw [if_neg hc] at h
      simp at h
  | cout l =>
    simp only [sinkStep, Option.some.injEq] at h; subst h; simp [closeCalls, openedSinks]
  | cerr l =>
    simp only [sinkStep, Option.some.injEq] at h; subst h; simp [closeCalls, openedSinks]
  | file_append f j =>
    simp only [sinkStep, Option.some.injEq] at h; subst h; simp [closeCalls, openedSinks]
  | file_write f b =>
    simp only [sinkStep, Option.some.injEq] at h; subst h; simp [closeCalls, openedSinks]
  | ofstream_fail f =>
    simp only [sinkStep, Option.some.injEq] at h; subst h; simp [closeCalls, openedSinks]

/-- Along a trace that keeps the sink protocol, closes and opens of each sink balance. -/
theorem monitor_counts (cur c : Option Nat) (es : List Event)
    (h : sinkMonitor cur es = some c) (g : Nat) :
    (closeCalls es).count g + c.toList.count g =
      (openedSinks es).count g + cur.toList.count g := by
  induction es generalizing cur with
  | nil =>
    simp only [sinkMonitor, Option.some.injEq] at h
    subst h
    simp [closeCalls, openedSinks]
  | cons e es ih =>
    simp only [sinkMonitor] at h
    cases hs : sinkStep cur e with
    | none => rw [hs] at h; simp at h
    | some c1 =>
      rw [hs] at h
      have h1 := sinkStep_counts cur c1 e hs g
      have h2 := ih c1 h
      have e1 : closeCalls (e :: es) = closeCalls [e] ++ closeCalls es :=
        closeCalls_append [e] es
      have e2 : openedSinks (e :: es) = openedSinks [e] ++ openedSinks es :=
        openedSinks_append [e] es
      rw [e1, e2, List.count_append, List.count_append]
      omega

/-- The trace of a handler's whole life keeps the sink protocol and ends with no sink
open. -/
theorem life_monitor (n0 SId : Nat) (pfx : Str) (calls : List AudioCall) :
    sinkMonitor none ((runAudio n0 (WavProgrammeHandler.new SId pfx) calls).2.2 ++
      (runAudio n0 (WavProgrammeHandler.new SId pfx) calls).2.1.destroy) = some none := by
  have h1 := runAudio_monitor n0 (WavProgrammeHandler.new SId pfx) calls
  have h0 : (WavProgrammeHandler.new SId pfx).fd = none := rfl
  rw [h0] at h1
  rw [sinkMonitor_append, h1]
  exact destroy_monitor _

theorem openedSinks_destroy (h : WavProgrammeHandler) : openedSinks h.destroy = [] := by
  unfold WavProgrammeHandler.destroy
  cases h.fd <;> rfl

/-- C9: over any sequence of `onNewAudio` calls on a fresh handler, with opens that
succeed or fail, followed by the destructor: after every prefix of the calls the
sinks opened and not yet closed are exactly the handler's `fd` (none or one); at
every point of the trace at most one sink is open; a sink is opened only when
none is open; the opened sinks are pairwise distinct and each one is closed
exactly once; nothing else is closed; and no sink is left open at the end. -/
theorem sink_lifecycle (n0 SId : Nat) (pfx : Str) (calls : List AudioCall) :
    (∀ k, openSinks [] (runAudio n0 (WavProgrammeHandler.new SId pfx) (calls.take k)).2.2 =
        (runAudio n0 (WavProgrammeHandler.new SId pfx) (calls.take k)).2.1.fd.toList) ∧
    (∀ k, (openSinks [] (((runAudio n0 (WavProgrammeHandler.new SId pfx) calls).2.2 ++
        (runAudio n0 (WavProgrammeHandler.new SId pfx) calls).2.1.destroy).take k)).length
        ≤ 1) ∧
    (∀ k f r ch g, ((runAudio n0 (WavProgrammeHandler.new SId pfx) calls).2.2 ++
        (runAudio n0 (WavProgrammeHandler.new SId pfx) calls).2.1.destroy)[k]? =
          some (Event.wavfile_open f r ch (some g)) →
      openSinks [] (((runAudio n0 (WavProgrammeHandler.new SId pfx) calls).2.2 ++
        (runAudio n0 (WavProgrammeHandler.new SId pfx) calls).2.1.destroy).take k) = []) ∧
    (openedSinks ((runAudio n0 (WavProgrammeHandler.new SId pfx) calls).2.2 ++
        (runAudio n0 (WavProgrammeHandler.new SId pfx) calls).2.1.destroy)).Nodup ∧
    (∀ g, g ∈ openedSinks ((runAudio n0 (WavProgrammeHandler.new SId pfx) calls).2.2 ++
        (runAudio n0 (WavProgrammeHandler.new SId pfx) calls).2.1.destroy) →
      (closeCalls ((runAudio n0 (WavProgrammeHandler.new SId pfx) calls).2.2 ++
        (runAudio n0 (WavProgrammeHandler.new SId pfx) calls).2.1.destroy)).count g = 1) ∧
    (∀ g, g ∉ openedSinks ((runAudio n0 (WavProgrammeHandler.new SId pfx) calls).2.2 ++
        (runAudio n0 (WavProgrammeHandler.new SId pfx) calls).2.1.destroy) →
      (closeCalls ((runAudio n0 (WavProgrammeHandler.new SId pfx) calls).2.2 ++
        (runAudio n0 (WavProgrammeHandler.new SId pfx) calls).2.1.destroy)).count g = 0) ∧
    openSinks [] ((runAudio n0 (WavProgrammeHandler.new SId pfx) calls).2.2 ++
        (runAudio n0 (WavProgrammeHandler.new SId pfx) calls).2.1.destroy) = [] := by
  have hlife := life_monitor n0 SId pfx calls
  have hnodup : (openedSinks ((runAudio n0 (WavProgrammeHandler.new SId pfx) calls).2.2 ++
      (runAudio n0 (WavProgrammeHandler.new SId pfx) calls).2.1.destroy)).Nodup := by
    rw [openedSinks_append, openedSinks_destroy, List.append_nil]
    exact (runAudio_inv n0 (WavProgrammeHandler.new SId pfx) calls
      (by intro f hf; simp [WavProgrammeHandler.new] at hf)).2.2.2.2.1
  refine ⟨?_, ?_, ?_, hnodup, ?_, ?_, ?_⟩
  · intro k
    have h1 := runAudio_monitor n0 (WavProgrammeHandler.new SId pfx) (calls.take k)
    exact openSinks_of_monitor none _ _ h1
  · intro k
    obtain ⟨c1, hc1, _⟩ := monitor_take none none _ hlife k
    have h2 := openSinks_of_monitor none c1 _ hc1
    simp only [Option.toList] at h2
    rw [h2]
    cases c1 <;> simp
  · intro k f r ch g he
    obtain ⟨c1, hc1, hopen⟩ := monitor_take none none _ hlife k
    have h2 := openSinks_of_monitor none c1 _ hc1
    rw [hopen f r ch g he] at h2
    exact h2
  · intro g hg
    have hc := monitor_counts none none _ hlife g
    have h1 := List.count_eq_one_of_mem hnodup hg
    simp only [Option.toList, List.count_nil, Nat.add_zero] at hc
    omega
  · intro g hg
    have hc := monitor_counts none none _ hlife g
    have h1 := List.count_eq_zero_of_not_mem hg
    simp only [Option.toList, List.count_nil, Nat.add_zero] at hc
    omega
  · exact openSinks_of_monitor none none _ hlife

end WelleCli
